import Mathlib

/-! SOMAS2020: the IIGO executive, the decisions of the judge and the history ledger

A shallow embedding of `internal/server/iigointernal/executive.go` and of the
behaviour that `internal/clients/team4/judge_test.go` pins down, with the
properties of the governance core stated and proved over it.

Conventions of the embedding
* `shared.Resources` is declared outside the files at hand; every definition is
  generic in a type `R` of resources carrying exact ordered arithmetic.
* A Go map is a partial function; reading an absent key yields the zero value.
* A method that can abort (a call through a nil interface, an explicit panic)
  returns an `Outcome` next to the state reached so far.
* Calls into agents and messages sent to islands are recorded, in order, in a
  log, so that "was not invoked" and "was not sent" are statements on the log.
* The `*gamestate.GameState` held by the executive is taken to be a valid
  pointer with an allocated budget map; the field holds the pointee.
-/

namespace SOMAS2020

/-! ## Shared vocabulary -/

/-- The identifier of an island, `shared.ClientID` (an integer type). -/
abbrev ClientID := Int

/-- A Go map, as the partial function from its keys to the values stored. -/
abbrev GoMap (K V : Type) := K → Option V

namespace GoMap

variable {K V : Type}

/-- The map with no entry, `map[K]V{}` (a nil map reads the same). -/
def empty : GoMap K V := fun _ => none

/-- Reading `m[k]`: the stored value, or the zero value when `k` is absent. -/
def get [Zero V] (m : GoMap K V) (k : K) : V := (m k).getD 0

/-- Writing `m[k] = v`. -/
def set [DecidableEq K] (m : GoMap K V) (k : K) (v : V) : GoMap K V :=
  fun j => if j = k then some v else m j

end GoMap

/-- How a call ends: it returns a value, or it panics. -/
inductive Outcome (α : Type) where
  | returned (value : α)
  | panicked
  deriving DecidableEq, Repr

/-- The tags of `shared.PresidentReturnContent` that the executive tests for. -/
inductive PresidentReturnContentType where
  | PresidentAllocation
  | PresidentTaxation
  | PresidentRuleProposal
  | PresidentSpeakerSalary
  deriving DecidableEq, Repr

/-- The envelope a president answers with, `shared.PresidentReturnContent`. -/
structure PresidentReturnContent (R : Type) where
  ContentType : PresidentReturnContentType
  ProposedRule : String
  ResourceMap : GoMap ClientID R
  SpeakerSalary : R
  ActionTaken : Bool

/-- What an island reports about its resources, `shared.ResourcesReport`. -/
structure ResourcesReport (R : Type) where
  ReportedAmount : R
  Reported : Bool

/-- The capability set of the role-holder, `roles.President`. -/
structure President (R : Type) where
  PaySpeaker : PresidentReturnContent R
  SetTaxationAmount : GoMap ClientID (ResourcesReport R) → PresidentReturnContent R
  EvaluateAllocationRequests : GoMap ClientID R → R → PresidentReturnContent R
  PickRuleToVote : List String → PresidentReturnContent R

/-- The part of an island client that the executive calls. -/
structure Client (R : Type) where
  RuleProposal : String
  CommonPoolResourceRequest : R

/-- The configured service charges, the package variable `actionCost`. -/
structure ActionCosts (R : Type) where
  GetRuleForSpeakerActionCost : R
  BroadcastTaxationActionCost : R
  RequestRuleProposalActionCost : R
  RequestAllocationRequestActionCost : R
  ReplyAllocationRequestsActionCost : R
  AppointNextSpeakerActionCost : R

/-- The field names of a message that the executive uses. -/
inductive CommunicationFieldName where
  | TaxAmount
  | AllocationAmount
  deriving DecidableEq, Repr

/-- The type tag of a message content; the executive only sends integers. -/
inductive CommunicationContentType where
  | CommunicationInt
  deriving DecidableEq, Repr

/-- The content of one message field, `shared.CommunicationContent`. -/
structure CommunicationContent where
  T : CommunicationContentType
  IntegerData : Int
  deriving DecidableEq, Repr

/-- The observable calls of the executive: president callbacks, agent callbacks,
messages to islands and ballots solicited. -/
inductive Event (R : Type) where
  | PaySpeaker
  | SetTaxationAmount
  | EvaluateAllocationRequests (commonPool : R)
  | PickRuleToVote (rulesProposals : List String)
  | RuleProposal (island : ClientID)
  | CommonPoolResourceRequest (island : ClientID)
  | communicateWithIslands (recipient sender : ClientID)
      (field : CommunicationFieldName) (content : CommunicationContent)
  | Vote (voter : ClientID)
  deriving DecidableEq, Repr

/-! ## Game state and the common pool -/

/-- The fields of `gamestate.GameState` that the executive reaches: the common
pool, the per-role budget ledger and the private balance of every island. -/
structure GameState (R : Type) where
  CommonPool : R
  IIGORolesBudget : GoMap String R
  ClientInfos : GoMap ClientID R

section Pool

variable {R : Type} [LinearOrderedAddCommGroup R]

/-- Modelled from the spec: the helper `WithdrawFromCommonPool` is called by the
executive but defined elsewhere in the package. "If the common pool balance is
below the configured action cost, the action function returns a failure and the
common pool balance is unchanged (no partial withdrawal)"; otherwise the amount
leaves the pool and is returned with success. -/
def WithdrawFromCommonPool (value : R) (gameState : GameState R) :
    (R × Bool) × GameState R :=
  if value ≤ gameState.CommonPool then
    ((value, true), { gameState with CommonPool := gameState.CommonPool - value })
  else
    ((0, false), gameState)

/-- Modelled from the spec: the helper `depositIntoClientPrivatePool` is called
by the executive but defined elsewhere in the package. It "deposits [the amount]
into that role-holder's private balance". -/
def depositIntoClientPrivatePool (value : R) (id : ClientID) (gameState : GameState R) :
    GameState R :=
  { gameState with
    ClientInfos := gameState.ClientInfos.set id (gameState.ClientInfos.get id + value) }

end Pool

/-! ## The executive -/

/-- The executive branch, `type executive struct`. -/
structure executive (R : Type) where
  gameState : GameState R
  ID : ClientID
  clientPresident : Option (President R)
  speakerSalary : R
  RulesProposals : List String
  ResourceRequests : GoMap ClientID R

/-- The package-level values that the executive reads and never writes. -/
structure Env (R : Type) where
  actionCost : ActionCosts R
  iigoClients : GoMap ClientID (Client R)
  SpeakerIDGlobal : ClientID
  /-- The table `shared.TeamIDs`; `none` outside its index range. -/
  TeamIDs : ClientID → Option ClientID
  /-- The Go conversion `int(x)` of a resource amount. -/
  toInt : R → Int
  /-- Modelled from the spec: the Election Engine (`voting.Election`) is defined
  outside the files at hand. "`CloseBallot() -> ClientID`: tallies under the
  configured rule and returns exactly one winner". -/
  CloseBallot : List ClientID → ClientID

/-- The executive together with the package state its methods write: the
exported allocation map and the log of observable calls. -/
structure IIGO (R : Type) where
  e : executive R
  AllocationAmountMapExport : GoMap ClientID R
  log : List (Event R)

section Executive

variable {R : Type} [LinearOrderedAddCommGroup R]

/-- The method `loadClientPresident`: panics on a nil president, else stores it. -/
def loadClientPresident (clientPresidentPointer : Option (President R))
    (e : executive R) : Outcome Unit × executive R :=
  match clientPresidentPointer with
  | none => (Outcome.panicked, e)
  | some p => (Outcome.returned (), { e with clientPresident := some p })

/-- The method `returnSpeakerSalary`. -/
def returnSpeakerSalary (e : executive R) : R × executive R :=
  (e.speakerSalary, { e with speakerSalary := 0 })

/-- The method `setRuleProposals`. -/
def setRuleProposals (rulesProposals : List String) (e : executive R) : executive R :=
  { e with RulesProposals := rulesProposals }

/-- The method `setAllocationRequest`. -/
def setAllocationRequest (resourceRequests : GoMap ClientID R) (e : executive R) :
    executive R :=
  { e with ResourceRequests := resourceRequests }

/-- The method `setGameState`. -/
def setGameState (g : GameState R) (e : executive R) : executive R :=
  { e with gameState := g }

/-- The method `incurServiceCharge`: withdraw `cost` from the common pool and,
when that succeeds, debit the president entry of the budget ledger. -/
def incurServiceCharge (cost : R) (e : executive R) : Bool × executive R :=
  match WithdrawFromCommonPool cost e.gameState with
  | ((_, ok), g) =>
    if ok then
      (ok, { e with gameState :=
        { g with IIGORolesBudget :=
          g.IIGORolesBudget.set "president" (g.IIGORolesBudget.get "president" - cost) } })
    else
      (ok, { e with gameState := g })

/-- The method `getRuleForSpeaker`. -/
def getRuleForSpeaker (env : Env R) (s : IIGO R) :
    Outcome (PresidentReturnContent R) × IIGO R :=
  match incurServiceCharge env.actionCost.GetRuleForSpeakerActionCost s.e with
  | (charged, e1) =>
    if !charged then
      (Outcome.returned
        { ContentType := PresidentReturnContentType.PresidentRuleProposal
          ProposedRule := ""
          ResourceMap := GoMap.empty
          SpeakerSalary := 0
          ActionTaken := false },
       { s with e := e1 })
    else
      match e1.clientPresident with
      | none => (Outcome.panicked, { s with e := e1 })
      | some p =>
        (Outcome.returned (p.PickRuleToVote e1.RulesProposals),
         { s with e := e1, log := s.log ++ [Event.PickRuleToVote e1.RulesProposals] })

/-- The helper `getTaxMap`. -/
def getTaxMap (islandsResources : GoMap ClientID (ResourcesReport R)) (s : IIGO R) :
    Outcome (PresidentReturnContent R) × IIGO R :=
  match s.e.clientPresident with
  | none => (Outcome.panicked, s)
  | some p =>
    (Outcome.returned (p.SetTaxationAmount islandsResources),
     { s with log := s.log ++ [Event.SetTaxationAmount] })

/-- The loop shared by the two broadcasts: one message per island alive, each
carrying `int(resourceMap[islandID])` under the given field name. -/
def broadcastLoop (env : Env R) (field : CommunicationFieldName)
    (resourceMap : GoMap ClientID R) (senderIndex : ClientID) :
    List ClientID → List (Event R) → Outcome Unit × List (Event R)
  | [], log => (Outcome.returned (), log)
  | islandID :: rest, log =>
    match env.TeamIDs senderIndex with
    | none => (Outcome.panicked, log)
    | some sender =>
      broadcastLoop env field resourceMap senderIndex rest
        (log ++ [Event.communicateWithIslands islandID sender field
          { T := CommunicationContentType.CommunicationInt
            IntegerData := env.toInt (resourceMap.get islandID) }])

/-- The method `broadcastTaxation`. The guard is the one of the source: the
early return is taken when `incurServiceCharge` answers true. -/
def broadcastTaxation (env : Env R) (islandsResources : GoMap ClientID (ResourcesReport R))
    (aliveIslands : List ClientID) (s : IIGO R) : Outcome (Option String) × IIGO R :=
  match incurServiceCharge env.actionCost.BroadcastTaxationActionCost s.e with
  | (charged, e1) =>
    if charged then
      (Outcome.returned (some "Insufficient Budget in common Pool: broadcastTaxation"),
       { s with e := e1 })
    else
      match getTaxMap islandsResources { s with e := e1 } with
      | (Outcome.panicked, s2) => (Outcome.panicked, s2)
      | (Outcome.returned taxMapReturn, s2) =>
        if taxMapReturn.ActionTaken
            && taxMapReturn.ContentType == PresidentReturnContentType.PresidentTaxation then
          match broadcastLoop env CommunicationFieldName.TaxAmount taxMapReturn.ResourceMap
              s2.e.ID aliveIslands s2.log with
          | (Outcome.panicked, log) => (Outcome.panicked, { s2 with log := log })
          | (Outcome.returned _, log) => (Outcome.returned none, { s2 with log := log })
        else
          (Outcome.returned none, s2)

/-- The method `getAllocationRequests`. -/
def getAllocationRequests (commonPool : R) (s : IIGO R) :
    Outcome (PresidentReturnContent R) × IIGO R :=
  match s.e.clientPresident with
  | none => (Outcome.panicked, s)
  | some p =>
    (Outcome.returned (p.EvaluateAllocationRequests s.e.ResourceRequests commonPool),
     { s with log := s.log ++ [Event.EvaluateAllocationRequests commonPool] })

/-- The loop of `requestRuleProposal`: ask each island alive, in order. -/
def collectRuleProposals (iigoClients : GoMap ClientID (Client R)) :
    List ClientID → List String → List (Event R) → Option (List String) × List (Event R)
  | [], rules, log => (some rules, log)
  | islandID :: rest, rules, log =>
    match iigoClients islandID with
    | none => (none, log)
    | some c =>
      collectRuleProposals iigoClients rest (rules ++ [c.RuleProposal])
        (log ++ [Event.RuleProposal islandID])

/-- The method `requestRuleProposal`. -/
def requestRuleProposal (env : Env R) (aliveIslands : List ClientID) (s : IIGO R) :
    Outcome (Option String) × IIGO R :=
  match incurServiceCharge env.actionCost.RequestRuleProposalActionCost s.e with
  | (charged, e1) =>
    if !charged then
      (Outcome.returned (some "Insufficient Budget in common Pool: broadcastTaxation"),
       { s with e := e1 })
    else
      match collectRuleProposals env.iigoClients aliveIslands [] s.log with
      | (none, log) => (Outcome.panicked, { s with e := e1, log := log })
      | (some rules, log) =>
        (Outcome.returned none, { s with e := setRuleProposals rules e1, log := log })

/-- The loop of `requestAllocationRequest`: ask each island alive, in order. -/
def collectAllocationRequests (iigoClients : GoMap ClientID (Client R)) :
    List ClientID → GoMap ClientID R → List (Event R) →
      Option (GoMap ClientID R) × List (Event R)
  | [], allocRequests, log => (some allocRequests, log)
  | islandID :: rest, allocRequests, log =>
    match iigoClients islandID with
    | none => (none, log)
    | some c =>
      collectAllocationRequests iigoClients rest
        (allocRequests.set islandID c.CommonPoolResourceRequest)
        (log ++ [Event.CommonPoolResourceRequest islandID])

/-- The method `requestAllocationRequest`. -/
def requestAllocationRequest (env : Env R) (aliveIslands : List ClientID) (s : IIGO R) :
    Outcome (Option String) × IIGO R :=
  match incurServiceCharge env.actionCost.RequestAllocationRequestActionCost s.e with
  | (charged, e1) =>
    if !charged then
      (Outcome.returned (some "Insufficient Budget in common Pool: requestAllocationRequest"),
       { s with e := e1 })
    else
      match collectAllocationRequests env.iigoClients aliveIslands GoMap.empty s.log with
      | (none, log) => (Outcome.panicked, { s with e := e1, log := log })
      | (some allocRequests, log) =>
        (Outcome.returned none,
         { e := setAllocationRequest allocRequests e1
           AllocationAmountMapExport := allocRequests
           log := log })

/-- The method `replyAllocationRequest`. -/
def replyAllocationRequest (env : Env R) (commonPool : R) (aliveIslands : List ClientID)
    (s : IIGO R) : Outcome (Option String) × IIGO R :=
  match incurServiceCharge env.actionCost.ReplyAllocationRequestsActionCost s.e with
  | (charged, e1) =>
    if !charged then
      (Outcome.returned (some "Insufficient Budget in common Pool: replyAllocationRequest"),
       { s with e := e1 })
    else
      match getAllocationRequests commonPool { s with e := e1 } with
      | (Outcome.panicked, s2) => (Outcome.panicked, s2)
      | (Outcome.returned allocationMapReturn, s2) =>
        if allocationMapReturn.ActionTaken
            && allocationMapReturn.ContentType
              == PresidentReturnContentType.PresidentAllocation then
          match broadcastLoop env CommunicationFieldName.AllocationAmount
              allocationMapReturn.ResourceMap s2.e.ID aliveIslands s2.log with
          | (Outcome.panicked, log) => (Outcome.panicked, { s2 with log := log })
          | (Outcome.returned _, log) => (Outcome.returned none, { s2 with log := log })
        else
          (Outcome.returned none, s2)

/-- The method `appointNextSpeaker`. The ballot itself belongs to the Election
Engine: every voter of the roster is solicited once and `CloseBallot` names the
winner. -/
def appointNextSpeaker (env : Env R) (clientIDs : List ClientID) (s : IIGO R) :
    Outcome (ClientID × Option String) × IIGO R :=
  match incurServiceCharge env.actionCost.AppointNextSpeakerActionCost s.e with
  | (charged, e1) =>
    if !charged then
      (Outcome.returned
        (s.e.ID, some "Insufficient Budget in common Pool: appointNextSpeaker"),
       { s with e := e1 })
    else
      (Outcome.returned (env.CloseBallot clientIDs, none),
       { s with e := e1, log := s.log ++ clientIDs.map Event.Vote })

/-- The method `sendSpeakerSalary`. -/
def sendSpeakerSalary (env : Env R) (s : IIGO R) : Outcome (Option String) × IIGO R :=
  match s.e.clientPresident with
  | none => (Outcome.returned (some "Cannot perform sendJudgeSalary"), s)
  | some p =>
    let amountReturn := p.PaySpeaker
    let s1 : IIGO R := { s with log := s.log ++ [Event.PaySpeaker] }
    if amountReturn.ActionTaken
        && amountReturn.ContentType == PresidentReturnContentType.PresidentSpeakerSalary then
      match WithdrawFromCommonPool amountReturn.SpeakerSalary s1.e.gameState with
      | ((amountWithdraw, withdrawSuccess), g) =>
        if withdrawSuccess then
          (Outcome.returned (some "Cannot perform sendJudgeSalary"),
           { s1 with e := { s1.e with gameState :=
              depositIntoClientPrivatePool amountWithdraw env.SpeakerIDGlobal g } })
        else
          (Outcome.returned (some "Cannot perform sendJudgeSalary"),
           { s1 with e := { s1.e with gameState := g } })
    else
      (Outcome.returned (some "Cannot perform sendJudgeSalary"), s1)

/-- The method `sendSpeakerSalary` with the two pool helpers as parameters, so
that the common pool may behave in any way: `withdrawFrom` stands for
`WithdrawFromCommonPool` and `depositInto` for `depositIntoClientPrivatePool`. -/
def sendSpeakerSalaryWith (withdrawFrom : R → GameState R → (R × Bool) × GameState R)
    (depositInto : R → ClientID → GameState R → GameState R) (env : Env R) (s : IIGO R) :
    Outcome (Option String) × IIGO R :=
  match s.e.clientPresident with
  | none => (Outcome.returned (some "Cannot perform sendJudgeSalary"), s)
  | some p =>
    let amountReturn := p.PaySpeaker
    let s1 : IIGO R := { s with log := s.log ++ [Event.PaySpeaker] }
    if amountReturn.ActionTaken
        && amountReturn.ContentType == PresidentReturnContentType.PresidentSpeakerSalary then
      match withdrawFrom amountReturn.SpeakerSalary s1.e.gameState with
      | ((amountWithdraw, withdrawSuccess), g) =>
        if withdrawSuccess then
          (Outcome.returned (some "Cannot perform sendJudgeSalary"),
           { s1 with e := { s1.e with gameState :=
              (depositInto amountWithdraw env.SpeakerIDGlobal g) } })
        else
          (Outcome.returned (some "Cannot perform sendJudgeSalary"),
           { s1 with e := { s1.e with gameState := g } })
    else
      (Outcome.returned (some "Cannot perform sendJudgeSalary"), s1)

/-- The method `reset`; its string argument is not used. -/
def reset (_val : String) (e : executive R) : executive R :=
  { e with
    ID := 0
    clientPresident := none
    ResourceRequests := GoMap.empty
    RulesProposals := []
    speakerSalary := 0 }

end Executive

/-! ## The judge: election trigger -/

/-- The outcome of monitoring a role-holder, `shared.MonitorResult`. -/
structure MonitorResult where
  Performed : Bool
  Result : Bool
  deriving DecidableEq, Repr

/-- The roles of IIGO, `shared.Role`. -/
inductive Role where
  | President
  | Judge
  | Speaker
  deriving DecidableEq, Repr

/-- The server handle the test builds for the judge: the configured term
lengths and whether the term-limit rule is in play. -/
structure fakeServerHandle where
  TermLengths : GoMap Role Nat
  ElectionRuleInPlay : Bool

/-- The answer of the election trigger, reduced to the flag under test. -/
structure ElectionSettings where
  HoldElection : Bool
  deriving DecidableEq, Repr

/-- Modelled from the spec: the body of the judge's `CallPresidentElection` is
not among the files at hand (only its test is). Decision policy, in precedence
order: "(1) If monitoring was performed and the result indicates non-compliance:
trigger an election unconditionally. (2) Else if monitoring was performed and
result indicates compliance: never trigger an election from this path. (3) Else
(monitoring not performed): trigger an election only if a term-limit rule is
currently in force AND `turnsInPower` strictly exceeds the configured term
length for the role." -/
def CallPresidentElection (server : fakeServerHandle) (monitoring : MonitorResult)
    (turnsInPower : Int) (_allIslands : List ClientID) : ElectionSettings :=
  if monitoring.Performed && !monitoring.Result then
    { HoldElection := true }
  else if monitoring.Performed then
    { HoldElection := false }
  else
    { HoldElection := server.ElectionRuleInPlay
        && decide (((server.TermLengths.get Role.President : Nat) : Int) < turnsInPower) }

/-- One row of the table of `TestCallPresidentElection`. -/
structure ElectionCase where
  name : String
  monitoring : MonitorResult
  turnsInPower : Int
  termLength : Nat
  electionRuleInPlay : Bool
  expectedElection : Bool

/-- The table of `TestCallPresidentElection`, row by row. -/
def electionCases : List ElectionCase :=
  [ { name := "no conditions"
      monitoring := { Performed := false, Result := false }
      turnsInPower := 1, termLength := 4
      electionRuleInPlay := false, expectedElection := false },
    { name := "term length exceeded. no rule"
      monitoring := { Performed := false, Result := false }
      turnsInPower := 2, termLength := 1
      electionRuleInPlay := false, expectedElection := false },
    { name := "term length exceeded. rule in play"
      monitoring := { Performed := false, Result := false }
      turnsInPower := 7, termLength := 5
      electionRuleInPlay := true, expectedElection := true },
    { name := "termLength=turnsInPower. rule in play"
      monitoring := { Performed := false, Result := false }
      turnsInPower := 5, termLength := 5
      electionRuleInPlay := true, expectedElection := false },
    { name := "monitoring done"
      monitoring := { Performed := true, Result := true }
      turnsInPower := 2, termLength := 3
      electionRuleInPlay := true, expectedElection := false },
    { name := "monitoring done and cheated"
      monitoring := { Performed := true, Result := false }
      turnsInPower := 5, termLength := 7
      electionRuleInPlay := true, expectedElection := true },
    { name := "monitoring done and cheated. term ended"
      monitoring := { Performed := true, Result := false }
      turnsInPower := 5, termLength := 4
      electionRuleInPlay := true, expectedElection := true } ]

/-- The server handle that the test builds from one row of its table. -/
def ElectionCase.server (tc : ElectionCase) : fakeServerHandle :=
  { TermLengths := (GoMap.empty : GoMap Role Nat).set Role.President tc.termLength
    ElectionRuleInPlay := tc.electionRuleInPlay }

/-- The check the test body makes on one row. -/
def ElectionCase.passes (tc : ElectionCase) (allTeams : List ClientID) : Bool :=
  (CallPresidentElection tc.server tc.monitoring tc.turnsInPower allTeams).HoldElection
    == tc.expectedElection

/-! ## The judge: pardons -/

/-- Modelled from the spec: the sanction tiers are declared outside the files at
hand; they form an "ordered enum: NoSanction < Tier1 < … < TierN", kept here as
the rank of the tier in that order. -/
abbrev SanctionTier := Nat

/-- The tier of an entry that carries no sanction. -/
def NoSanction : SanctionTier := 0

/-- The first tier. -/
def SanctionTier1 : SanctionTier := 1

/-- The fourth tier. -/
def SanctionTier4 : SanctionTier := 4

/-- The three teams that the tests name, `shared.Team1` to `shared.Team3`. -/
def Team1 : ClientID := 0

/-- The second team. -/
def Team2 : ClientID := 1

/-- The third team. -/
def Team3 : ClientID := 2

/-- A sanction in force, `shared.Sanction`. -/
structure Sanction where
  ClientID : ClientID
  SanctionTier : SanctionTier
  TurnsLeft : Int
  deriving DecidableEq, Repr

/-- The sanctions by monitoring round, `map[int][]shared.Sanction`, as the list
of the entries of the map. -/
abbrev SanctionMap := List (Int × List Sanction)

/-- The pardons by monitoring round, `map[int][]bool`, as the list of the
entries of the map. -/
abbrev PardonMap := List (Int × List Bool)

/-- One row of the table of `TestGetPardonedIslands`. -/
structure PardonCase where
  name : String
  sanctions : SanctionMap
  pardons : PardonMap
  trust : List ℚ

/-- The row "empty sanctions". -/
def pardonCaseEmpty : PardonCase :=
  { name := "empty sanctions", sanctions := [], pardons := []
    trust := [0, 0, 0, 0, 0, 0] }

/-- The row "no sanction". -/
def pardonCaseNoSanction : PardonCase :=
  { name := "no sanction"
    sanctions := [(0, [ { ClientID := Team1, SanctionTier := NoSanction, TurnsLeft := 5 },
                        { ClientID := Team2, SanctionTier := NoSanction, TurnsLeft := 5 } ])]
    pardons := [(0, [false, false])]
    trust := [1 / 2, 1 / 2] }

/-- The row "get pardon": one Tier1 sanction, trust 0.7. -/
def pardonCaseGetPardon : PardonCase :=
  { name := "get pardon"
    sanctions := [(0, [ { ClientID := Team1, SanctionTier := SanctionTier1, TurnsLeft := 3 } ])]
    pardons := [(0, [true])]
    trust := [7 / 10] }

/-- The row "get one pardon": a Tier1 sanction with trust 0.61 next to a Tier4
sanction with trust 0.99; the test expects `{true, false}`. -/
def pardonCaseGetOnePardon : PardonCase :=
  { name := "get one pardon"
    sanctions := [(0, [ { ClientID := Team1, SanctionTier := SanctionTier1, TurnsLeft := 3 },
                        { ClientID := Team2, SanctionTier := SanctionTier4, TurnsLeft := 2 } ])]
    pardons := [(0, [true, false])]
    trust := [61 / 100, 99 / 100] }

/-- The table of `TestGetPardonedIslands`. -/
def pardonCases : List PardonCase :=
  [pardonCaseEmpty, pardonCaseNoSanction, pardonCaseGetPardon, pardonCaseGetOnePardon]

/-- What the test body demands of an implementation of `GetPardonedIslands`
(given the trust vector it installs): on every row the result equals the
expected pardons. -/
def PassesTestGetPardonedIslands (f : List ℚ → SanctionMap → PardonMap) : Prop :=
  ∀ tc ∈ pardonCases, f tc.trust tc.sanctions = tc.pardons

/-- The pardon recorded for position `index` of round `round`, if there is one. -/
def pardonAt (pardons : PardonMap) (round : Int) (index : Nat) : Option Bool :=
  match pardons.lookup round with
  | none => none
  | some flags => flags.get? index

/-- The configured constants of the pardon policy of section 4.3: the trust
threshold of clause (b), the disqualifying tier of clause (a), and which tiers
"the policy designates as round-blocking" for clause (c). -/
structure PardonPolicy where
  threshold : ℚ
  disqualifyingTier : SanctionTier
  roundBlocking : SanctionTier → Bool

/-- Modelled from the spec: the per-agent part of the pardon policy. An agent
qualifies "only if (a) its own sanction tier is below a configured
disqualifying tier, (b) its trust value exceeds a configured threshold";
"`NoSanction` entries are never pardoned". The trust vector is "indexed by
agent position within each round's sanction list". -/
def pardonOne (policy : PardonPolicy) (trust : List ℚ) (index : Nat) (sanction : Sanction) :
    Bool :=
  sanction.SanctionTier != NoSanction
    && decide (sanction.SanctionTier < policy.disqualifyingTier)
    && (match trust.get? index with
        | some t => decide (policy.threshold < t)
        | none => false)

/-- Modelled from the spec: whether a sanction blocks the round for the other
agents, being "a sanction at or above the disqualifying tier that the policy
designates as round-blocking". -/
def blocksRound (policy : PardonPolicy) (sanction : Sanction) : Bool :=
  decide (policy.disqualifyingTier ≤ sanction.SanctionTier)
    && policy.roundBlocking sanction.SanctionTier

/-- Modelled from the spec: the per-round gate of clause (c) for the agent at
position `index`: some other agent of the same round carries a sanction that
blocks the round. -/
def roundBlocked (policy : PardonPolicy) (round : List Sanction) (index : Nat) : Bool :=
  round.enum.any fun other => other.1 != index && blocksRound policy other.2

/-- Modelled from the spec: the body of the judge's `GetPardonedIslands` is not
among the files at hand (only its test is). Policy of section 4.3: "an agent
qualifies for a pardon only if (a) its own sanction tier is below a configured
disqualifying tier, (b) its trust value exceeds a configured threshold, and (c)
no other agent in the same round carries a sanction at or above the
disqualifying tier that the policy designates as round-blocking". "Output map
must contain exactly one boolean per input sanction, same order, same round
keys; rounds with no sanctions are omitted entirely." -/
def GetPardonedIslands (policy : PardonPolicy) (trust : List ℚ)
    (currentSanctions : SanctionMap) : PardonMap :=
  (currentSanctions.filter fun kv => !kv.2.isEmpty).map fun kv =>
    (kv.1, kv.2.enum.map fun entry =>
      pardonOne policy trust entry.1 entry.2 && !roundBlocked policy kv.2 entry.1)

/-! ## The history ledger -/

/-- The variable names that the history test feeds, `rules.VariableFieldName`. -/
inductive VariableFieldName where
  | IslandReportedPrivateResources
  | IslandActualPrivateResources
  | IslandTaxContribution
  | ExpectedTaxContribution
  | IslandAllocation
  | ExpectedAllocation
  | AllocationMade
  | ConstSanctionAmount
  | HasIslandReportPrivateResources
  deriving DecidableEq, Repr

/-- A named field with its numeric value, `rules.VariableValuePair`. -/
structure VariableValuePair where
  VariableName : VariableFieldName
  Value : ℚ
  deriving DecidableEq

/-- One accountability record, `shared.Accountability`. -/
structure Accountability where
  ClientID : ClientID
  Pairs : List VariableValuePair
  deriving DecidableEq

/-- A reported value next to the actual one. -/
structure valuePair where
  expected : ℚ
  actual : ℚ
  deriving DecidableEq

/-- Modelled from the spec: the summary kept per agent and turn "holds the
paired (reported, actual) values for resources/tax/allocation plus a `Lied`
counter"; its declaration is not among the files at hand. -/
structure judgeHistoryInfo where
  Resources : valuePair
  Taxation : valuePair
  Allocation : valuePair
  Lied : Int
  deriving DecidableEq

/-- The type of `buildHistoryInfo`: from the pairs of one agent to a summary and
the flag `ok`. Its body is not among the files at hand, so the ledger is
embedded for an arbitrary builder. -/
abbrev Builder := List VariableValuePair → judgeHistoryInfo × Bool

/-- The saved history, `turn → (ClientID → HistoryInfo)`. -/
abbrev SavedHistory := GoMap Nat (GoMap ClientID judgeHistoryInfo)

/-- Append the pairs of one record to the entry of its client, creating the
entry at the end when the client is new. -/
def appendPairs (client : ClientID) (pairs : List VariableValuePair) :
    List (ClientID × List VariableValuePair) → List (ClientID × List VariableValuePair)
  | [] => [(client, pairs)]
  | (c, ps) :: rest =>
    if c = client then (c, ps ++ pairs) :: rest
    else (c, ps) :: appendPairs client pairs rest

/-- Modelled from the spec: first step of `saveHistoryInfo`, "groups records by
ClientID", the pairs of one agent kept in record order. -/
def groupByClient (records : List Accountability) :
    List (ClientID × List VariableValuePair) :=
  records.foldl (fun grouped acc => appendPairs acc.ClientID acc.Pairs grouped) []

/-- The pairs that a grouping holds for a client, if it has an entry for it. -/
def lookupPairs (client : ClientID) :
    List (ClientID × List VariableValuePair) → Option (List VariableValuePair)
  | [] => none
  | (c, ps) :: rest => if c = client then some ps else lookupPairs client rest

/-- Modelled from the spec: second and third step of `saveHistoryInfo`, "builds a
HistoryInfo per agent via the builder; agents that fail the ok check contribute
no entry" and "attaches to each accepted HistoryInfo the externally computed lie
count for that agent". -/
def buildStep (buildHistoryInfo : Builder) (lieCounts : GoMap ClientID Int)
    (m : GoMap ClientID judgeHistoryInfo) (kv : ClientID × List VariableValuePair) :
    GoMap ClientID judgeHistoryInfo :=
  match buildHistoryInfo kv.2 with
  | (got, true) => m.set kv.1 { got with Lied := lieCounts.get kv.1 }
  | (_, false) => m

/-- The per-turn map of `saveHistoryInfo`: `buildStep` over every grouped
client, starting from an empty map. -/
def buildTurn (buildHistoryInfo : Builder) (lieCounts : GoMap ClientID Int)
    (grouped : List (ClientID × List VariableValuePair)) : GoMap ClientID judgeHistoryInfo :=
  grouped.foldl (buildStep buildHistoryInfo lieCounts) GoMap.empty

/-- Modelled from the spec: the judge's `saveHistoryInfo`, whose body is not
among the files at hand (only its test is). It groups, builds and attaches as
above and "writes the resulting `ClientID → HistoryInfo` map into SavedHistory
at key `turn`". -/
def saveHistoryInfo (buildHistoryInfo : Builder) (iigoHistory : List Accountability)
    (lieCounts : GoMap ClientID Int) (turn : Nat) (savedHistory : SavedHistory) :
    SavedHistory :=
  savedHistory.set turn (buildTurn buildHistoryInfo lieCounts (groupByClient iigoHistory))

/-- The pairs of one client in a turn: those of its records, in record order. -/
def pairsOf (records : List Accountability) (client : ClientID) : List VariableValuePair :=
  (records.filter fun acc => acc.ClientID = client).flatMap fun acc => acc.Pairs

/-- The per-turn result that the test's `makeHistory` expects: for each client
with a record, the summary that `buildHistoryInfo` yields for all its pairs,
`Lied` set from `lieCounts`, present only when the builder says `ok`. -/
def expectedTurn (buildHistoryInfo : Builder) (records : List Accountability)
    (lieCounts : GoMap ClientID Int) : GoMap ClientID judgeHistoryInfo :=
  fun client =>
    if client ∈ records.map (fun acc => acc.ClientID) then
      match buildHistoryInfo (pairsOf records client) with
      | (got, true) => some { got with Lied := lieCounts.get client }
      | (_, false) => none
    else
      none

/-- The test helper `makeHistory`, for the values it has drawn. `clientVars`
lists the entries of the map of the test in the order the loop visits them,
each variable already paired with its random value. Every variable becomes a
record of its own, appended to `history`; `expected` gets, for each client whose
pairs the builder accepts, the summary with `Lied` set from `lieCounts`. -/
def makeHistory (buildHistoryInfo : Builder)
    (clientVars : List (ClientID × List VariableValuePair)) (lieCounts : GoMap ClientID Int) :
    List Accountability × GoMap ClientID judgeHistoryInfo :=
  clientVars.foldl
    (fun state kv =>
      (state.1 ++ kv.2.map (fun newPair => { ClientID := kv.1, Pairs := [newPair] }),
       match buildHistoryInfo kv.2 with
       | (got, true) => state.2.set kv.1 { got with Lied := lieCounts.get kv.1 }
       | (_, false) => state.2))
    ([], GoMap.empty)

/-- One call of `saveHistoryInfo`: the records, the lie counts and the turn. -/
structure SaveCall where
  records : List Accountability
  lieCounts : GoMap ClientID Int
  turn : Nat

/-- The saved history after a sequence of calls, starting from a given one. -/
def saveAll (buildHistoryInfo : Builder) (calls : List SaveCall)
    (savedHistory : SavedHistory) : SavedHistory :=
  calls.foldl
    (fun h call => saveHistoryInfo buildHistoryInfo call.records call.lieCounts call.turn h)
    savedHistory

/-! ## A concrete scenario

Integer resources, every service charge 10, a president who acts on every
request, and two executives that differ only in the common pool: one that
cannot pay a charge (pool 5) and one that can (pool 100). -/

/-- A president who taxes island 1 by seven units and pays the speaker three. -/
def samplePresident : President Int :=
  { PaySpeaker :=
      { ContentType := PresidentReturnContentType.PresidentSpeakerSalary
        ProposedRule := "", ResourceMap := GoMap.empty, SpeakerSalary := 3
        ActionTaken := true }
    SetTaxationAmount := fun _ =>
      { ContentType := PresidentReturnContentType.PresidentTaxation
        ProposedRule := "", ResourceMap := (GoMap.empty : GoMap ClientID Int).set 1 7
        SpeakerSalary := 0, ActionTaken := true }
    EvaluateAllocationRequests := fun requests _ =>
      { ContentType := PresidentReturnContentType.PresidentAllocation
        ProposedRule := "", ResourceMap := requests, SpeakerSalary := 0
        ActionTaken := true }
    PickRuleToVote := fun rulesProposals =>
      { ContentType := PresidentReturnContentType.PresidentRuleProposal
        ProposedRule := rulesProposals.headD "", ResourceMap := GoMap.empty
        SpeakerSalary := 0, ActionTaken := true } }

/-- Six teams, every charge 10, island 2 is the speaker. -/
def sampleEnv : Env Int :=
  { actionCost :=
      { GetRuleForSpeakerActionCost := 10
        BroadcastTaxationActionCost := 10
        RequestRuleProposalActionCost := 10
        RequestAllocationRequestActionCost := 10
        ReplyAllocationRequestsActionCost := 10
        AppointNextSpeakerActionCost := 10 }
    iigoClients := fun id =>
      if 0 ≤ id ∧ id < 6 then some { RuleProposal := "rule", CommonPoolResourceRequest := 4 }
      else none
    SpeakerIDGlobal := 2
    TeamIDs := fun i => if 0 ≤ i ∧ i < 6 then some i else none
    toInt := fun x => x
    CloseBallot := fun clientIDs => clientIDs.headD 0 }

/-- A game state with the given common pool, a president budget of 50 and an
island 2 that owns 20. -/
def sampleGameState (pool : Int) : GameState Int :=
  { CommonPool := pool
    IIGORolesBudget := (GoMap.empty : GoMap String Int).set "president" 50
    ClientInfos := (GoMap.empty : GoMap ClientID Int).set 2 20 }

/-- The executive of island 1 with the sample president loaded, a salary of 9,
one stored proposal and one stored request. -/
def sampleExecutive (pool : Int) : executive Int :=
  { gameState := sampleGameState pool
    ID := 1
    clientPresident := some samplePresident
    speakerSalary := 9
    RulesProposals := ["rule A"]
    ResourceRequests := (GoMap.empty : GoMap ClientID Int).set 3 8 }

/-- The state whose common pool (5) is below every service charge (10). -/
def poorIIGO : IIGO Int :=
  { e := sampleExecutive 5, AllocationAmountMapExport := GoMap.empty, log := [] }

/-- The state whose common pool (100) covers every service charge (10). -/
def richIIGO : IIGO Int :=
  { e := sampleExecutive 100, AllocationAmountMapExport := GoMap.empty, log := [] }

/-- Pardon constants under which the policy passes the test table: trust must
exceed 0.6, Tier4 is the disqualifying tier, and no tier is designated as
round-blocking. -/
def samplePolicy : PardonPolicy :=
  { threshold := 3 / 5, disqualifyingTier := SanctionTier4, roundBlocking := fun _ => false }

/-- The same constants with every tier from Tier4 on designated as
round-blocking. -/
def blockingPolicy : PardonPolicy :=
  { threshold := 3 / 5, disqualifyingTier := SanctionTier4
    roundBlocking := fun tier => decide (SanctionTier4 ≤ tier) }

/-- The six teams of the game, the `allTeams` of the election test. -/
def allTeams : List ClientID := [0, 1, 2, 3, 4, 5]

/-- The last value recorded under a field name, 0 when there is none. -/
def lastValue (name : VariableFieldName) (pairs : List VariableValuePair) : ℚ :=
  ((pairs.reverse.find? fun pair => pair.VariableName = name).map fun pair => pair.Value).getD 0

/-- Whether a field name occurs among the pairs. -/
def hasField (name : VariableFieldName) (pairs : List VariableValuePair) : Bool :=
  pairs.any fun pair => pair.VariableName = name

/-- Modelled from the spec: a `buildHistoryInfo` as section 4.1 describes it,
used as the concrete builder of the scenario. It "extracts known fields from an
unordered list of name/value pairs; unknown field names are ignored; duplicate
field names use the last-seen value"; the result is valid only if "at minimum
the reported/actual resource pair and the tax pair" are present. -/
def buildHistoryInfo : Builder := fun pairs =>
  ({ Resources :=
       { expected := lastValue VariableFieldName.IslandReportedPrivateResources pairs
         actual := lastValue VariableFieldName.IslandActualPrivateResources pairs }
     Taxation :=
       { expected := lastValue VariableFieldName.ExpectedTaxContribution pairs
         actual := lastValue VariableFieldName.IslandTaxContribution pairs }
     Allocation :=
       { expected := lastValue VariableFieldName.ExpectedAllocation pairs
         actual := lastValue VariableFieldName.IslandAllocation pairs }
     Lied := 0 },
   hasField VariableFieldName.IslandReportedPrivateResources pairs
     && hasField VariableFieldName.IslandActualPrivateResources pairs
     && hasField VariableFieldName.IslandTaxContribution pairs
     && hasField VariableFieldName.ExpectedTaxContribution pairs)

/-- The records of a turn in which team 1 reports everything, one variable a
record, and team 3 reports its resources only. -/
def sampleRecords (scale : ℚ) : List Accountability :=
  [ { ClientID := Team1
      Pairs := [⟨VariableFieldName.IslandReportedPrivateResources, 10 * scale⟩] },
    { ClientID := Team3
      Pairs := [⟨VariableFieldName.IslandReportedPrivateResources, 4 * scale⟩] },
    { ClientID := Team1
      Pairs := [⟨VariableFieldName.IslandActualPrivateResources, 12 * scale⟩] },
    { ClientID := Team1, Pairs := [⟨VariableFieldName.IslandTaxContribution, 2 * scale⟩] },
    { ClientID := Team1, Pairs := [⟨VariableFieldName.ExpectedTaxContribution, 3 * scale⟩] } ]

/-- The lie counts of the scenario: team 1 lied once, team 3 twenty-two times. -/
def sampleLieCounts : GoMap ClientID Int :=
  ((GoMap.empty : GoMap ClientID Int).set Team1 1).set Team3 22

/-- Two calls of `saveHistoryInfo`, for turn 13 and then turn 14. -/
def sampleCalls : List SaveCall :=
  [ { records := sampleRecords 1, lieCounts := sampleLieCounts, turn := 13 },
    { records := sampleRecords 2, lieCounts := sampleLieCounts, turn := 14 } ]

/-! ## Properties of the common pool and of the service charge -/

section PoolFacts

variable {R : Type} [LinearOrderedAddCommGroup R]

theorem WithdrawFromCommonPool_of_lt (value : R) (g : GameState R)
    (h : g.CommonPool < value) : WithdrawFromCommonPool value g = ((0, false), g) := by
  unfold WithdrawFromCommonPool
  rw [if_neg (not_le.mpr h)]

theorem WithdrawFromCommonPool_of_le (value : R) (g : GameState R)
    (h : value ≤ g.CommonPool) :
    WithdrawFromCommonPool value g
      = ((value, true), { g with CommonPool := g.CommonPool - value }) := by
  unfold WithdrawFromCommonPool
  rw [if_pos h]

theorem WithdrawFromCommonPool_ok_iff (value : R) (g : GameState R) :
    (WithdrawFromCommonPool value g).1.2 = true ↔ value ≤ g.CommonPool := by
  unfold WithdrawFromCommonPool
  split <;> simp_all

theorem WithdrawFromCommonPool_failed (value : R) (g : GameState R)
    (h : (WithdrawFromCommonPool value g).1.2 = false) :
    WithdrawFromCommonPool value g = ((0, false), g) := by
  by_cases hle : value ≤ g.CommonPool
  · rw [WithdrawFromCommonPool_of_le value g hle] at h
    simp at h
  · exact WithdrawFromCommonPool_of_lt value g (not_le.mp hle)

theorem incurServiceCharge_of_lt (cost : R) (e : executive R)
    (h : e.gameState.CommonPool < cost) : incurServiceCharge cost e = (false, e) := by
  unfold incurServiceCharge
  rw [WithdrawFromCommonPool_of_lt cost e.gameState h]
  rfl

theorem incurServiceCharge_of_le (cost : R) (e : executive R)
    (h : cost ≤ e.gameState.CommonPool) :
    incurServiceCharge cost e
      = (true, { e with gameState :=
          { CommonPool := e.gameState.CommonPool - cost
            IIGORolesBudget := e.gameState.IIGORolesBudget.set "president"
              (e.gameState.IIGORolesBudget.get "president" - cost)
            ClientInfos := e.gameState.ClientInfos } }) := by
  unfold incurServiceCharge
  rw [WithdrawFromCommonPool_of_le cost e.gameState h]
  rfl

theorem incurServiceCharge_fst (cost : R) (e : executive R) :
    (incurServiceCharge cost e).1 = (WithdrawFromCommonPool cost e.gameState).1.2 := by
  by_cases h : cost ≤ e.gameState.CommonPool
  · rw [incurServiceCharge_of_le cost e h, WithdrawFromCommonPool_of_le cost e.gameState h]
  · rw [incurServiceCharge_of_lt cost e (not_le.mp h),
      WithdrawFromCommonPool_of_lt cost e.gameState (not_le.mp h)]

end PoolFacts

/-! ## The executive: service-charge gating -/

section Gating

variable {R : Type} [LinearOrderedAddCommGroup R]

theorem broadcastLoop_log (env : Env R) (field : CommunicationFieldName)
    (resourceMap : GoMap ClientID R) (senderIndex : ClientID) (islands : List ClientID) :
    ∀ log : List (Event R),
      log <+: (broadcastLoop env field resourceMap senderIndex islands log).2 := by
  induction islands with
  | nil => intro log; exact List.prefix_refl log
  | cons islandID rest ih =>
    intro log
    unfold broadcastLoop
    cases env.TeamIDs senderIndex with
    | none => exact List.prefix_refl log
    | some sender => exact (List.prefix_append log _).trans (ih _)

/-- What `broadcastTaxation` does, for any state, once the charge has failed and
a president is loaded: it asks the president for the tax map, and it does not
return an error. -/
theorem broadcastTaxation_of_failed_charge (env : Env R)
    (islandsResources : GoMap ClientID (ResourcesReport R)) (aliveIslands : List ClientID)
    (s : IIGO R) (p : President R) (hp : s.e.clientPresident = some p)
    (h : s.e.gameState.CommonPool < env.actionCost.BroadcastTaxationActionCost) :
    (∀ msg : String, (broadcastTaxation env islandsResources aliveIslands s).1
        ≠ Outcome.returned (some msg))
    ∧ (s.log ++ [Event.SetTaxationAmount])
        <+: (broadcastTaxation env islandsResources aliveIslands s).2.log := by
  have hloop := broadcastLoop_log env CommunicationFieldName.TaxAmount
    (p.SetTaxationAmount islandsResources).ResourceMap s.e.ID aliveIslands
    (s.log ++ [Event.SetTaxationAmount])
  unfold broadcastTaxation
  rw [incurServiceCharge_of_lt _ _ h]
  simp only [getTaxMap, hp, Bool.false_eq_true, if_false]
  split
  · rcases hb : broadcastLoop env CommunicationFieldName.TaxAmount
        (p.SetTaxationAmount islandsResources).ResourceMap s.e.ID aliveIslands
        (s.log ++ [Event.SetTaxationAmount]) with ⟨out, log⟩
    rw [hb] at hloop
    cases out <;> exact ⟨by simp, hloop⟩
  · exact ⟨by simp, List.prefix_refl _⟩

/-- C1, the code at the failing input. With the common pool (5) below the charge
(10) `incurServiceCharge` answers false, and `broadcastTaxation` then returns a
nil error, has asked the president for the tax map and has sent a TaxAmount
message to each island alive. With the pool at 100 the charge is taken and the
same call returns the "Insufficient Budget" error without any call or message:
the guard of `broadcastTaxation` lacks the negation that its sibling actions
have. -/
theorem broadcastTaxation_guard_inverted :
    (incurServiceCharge sampleEnv.actionCost.BroadcastTaxationActionCost poorIIGO.e).1 = false
    ∧ (broadcastTaxation sampleEnv GoMap.empty [1, 2] poorIIGO).1 = Outcome.returned none
    ∧ (broadcastTaxation sampleEnv GoMap.empty [1, 2] poorIIGO).2.log
        = [ Event.SetTaxationAmount,
            Event.communicateWithIslands 1 1 CommunicationFieldName.TaxAmount
              { T := CommunicationContentType.CommunicationInt, IntegerData := 7 },
            Event.communicateWithIslands 2 1 CommunicationFieldName.TaxAmount
              { T := CommunicationContentType.CommunicationInt, IntegerData := 0 } ]
    ∧ (incurServiceCharge sampleEnv.actionCost.BroadcastTaxationActionCost richIIGO.e).1 = true
    ∧ (broadcastTaxation sampleEnv GoMap.empty [1, 2] richIIGO).1
        = Outcome.returned (some "Insufficient Budget in common Pool: broadcastTaxation")
    ∧ (broadcastTaxation sampleEnv GoMap.empty [1, 2] richIIGO).2.log = []
    ∧ (broadcastTaxation sampleEnv GoMap.empty [1, 2] richIIGO).2.e.gameState.CommonPool = 90 := by
  refine ⟨?_, ?_, ?_, ?_, ?_, ?_, ?_⟩ <;> decide

/-- C2. For each of `requestRuleProposal`, `requestAllocationRequest`,
`replyAllocationRequest` and `appointNextSpeaker`: if the common pool balance is
below the configured cost of the action, the action returns its error (with the
executive's own ID for `appointNextSpeaker`) and the whole state is the one it
started from: common pool, budget ledger, `RulesProposals`, `ResourceRequests`
and the exported map are unchanged and the log has no new call or message. -/
theorem gated_actions_skip_when_pool_below_cost (env : Env R) (s : IIGO R)
    (aliveIslands : List ClientID) (commonPool : R) :
    (s.e.gameState.CommonPool < env.actionCost.RequestRuleProposalActionCost →
      requestRuleProposal env aliveIslands s
        = (Outcome.returned (some "Insufficient Budget in common Pool: broadcastTaxation"), s))
    ∧ (s.e.gameState.CommonPool < env.actionCost.RequestAllocationRequestActionCost →
      requestAllocationRequest env aliveIslands s
        = (Outcome.returned
            (some "Insufficient Budget in common Pool: requestAllocationRequest"), s))
    ∧ (s.e.gameState.CommonPool < env.actionCost.ReplyAllocationRequestsActionCost →
      replyAllocationRequest env commonPool aliveIslands s
        = (Outcome.returned
            (some "Insufficient Budget in common Pool: replyAllocationRequest"), s))
    ∧ (s.e.gameState.CommonPool < env.actionCost.AppointNextSpeakerActionCost →
      appointNextSpeaker env aliveIslands s
        = (Outcome.returned
            (s.e.ID, some "Insufficient Budget in common Pool: appointNextSpeaker"), s)) := by
  refine ⟨fun h => ?_, fun h => ?_, fun h => ?_, fun h => ?_⟩
  · unfold requestRuleProposal
    rw [incurServiceCharge_of_lt _ _ h]
    rfl
  · unfold requestAllocationRequest
    rw [incurServiceCharge_of_lt _ _ h]
    rfl
  · unfold replyAllocationRequest
    rw [incurServiceCharge_of_lt _ _ h]
    rfl
  · unfold appointNextSpeaker
    rw [incurServiceCharge_of_lt _ _ h]
    rfl

/-- C2 at a concrete state: the pool holds 5, every charge is 10. -/
theorem gated_actions_skip_when_pool_below_cost_witness :
    poorIIGO.e.gameState.CommonPool < sampleEnv.actionCost.RequestRuleProposalActionCost
    ∧ requestRuleProposal sampleEnv [1, 2] poorIIGO
        = (Outcome.returned (some "Insufficient Budget in common Pool: broadcastTaxation"),
            poorIIGO)
    ∧ requestAllocationRequest sampleEnv [1, 2] poorIIGO
        = (Outcome.returned
            (some "Insufficient Budget in common Pool: requestAllocationRequest"), poorIIGO)
    ∧ replyAllocationRequest sampleEnv 5 [1, 2] poorIIGO
        = (Outcome.returned
            (some "Insufficient Budget in common Pool: replyAllocationRequest"), poorIIGO)
    ∧ appointNextSpeaker sampleEnv [1, 2] poorIIGO
        = (Outcome.returned
            (1, some "Insufficient Budget in common Pool: appointNextSpeaker"), poorIIGO) :=
  ⟨by decide,
   (gated_actions_skip_when_pool_below_cost sampleEnv poorIIGO [1, 2] 5).1 (by decide),
   (gated_actions_skip_when_pool_below_cost sampleEnv poorIIGO [1, 2] 5).2.1 (by decide),
   (gated_actions_skip_when_pool_below_cost sampleEnv poorIIGO [1, 2] 5).2.2.1 (by decide),
   (gated_actions_skip_when_pool_below_cost sampleEnv poorIIGO [1, 2] 5).2.2.2 (by decide)⟩

end Gating

/-! ## The executive: budget ledger, salary, rule for the speaker -/

section Ledger

variable {R : Type} [LinearOrderedAddCommGroup R]

/-- C3. `incurServiceCharge cost` returns true exactly when the withdrawal of
`cost` from the common pool succeeds. When it returns true, the ledger entry
`IIGORolesBudget["president"]` is reduced by exactly `cost` and the entry of
every other role is unchanged; when it returns false, the whole budget ledger is
unchanged. -/
theorem incurServiceCharge_budget (cost : R) (e : executive R) :
    ((incurServiceCharge cost e).1 = true
        ↔ (WithdrawFromCommonPool cost e.gameState).1.2 = true)
    ∧ ((incurServiceCharge cost e).1 = true →
        (incurServiceCharge cost e).2.gameState.IIGORolesBudget.get "president"
            = e.gameState.IIGORolesBudget.get "president" - cost
          ∧ ∀ role : String, role ≠ "president" →
              (incurServiceCharge cost e).2.gameState.IIGORolesBudget role
                = e.gameState.IIGORolesBudget role)
    ∧ ((incurServiceCharge cost e).1 = false →
        (incurServiceCharge cost e).2.gameState.IIGORolesBudget
          = e.gameState.IIGORolesBudget) := by
  refine ⟨by rw [incurServiceCharge_fst], fun h => ?_, fun h => ?_⟩
  · have hle : cost ≤ e.gameState.CommonPool := by
      rw [incurServiceCharge_fst] at h
      exact (WithdrawFromCommonPool_ok_iff cost e.gameState).mp h
    rw [incurServiceCharge_of_le cost e hle]
    refine ⟨by simp [GoMap.get, GoMap.set], fun role hrole => ?_⟩
    simp [GoMap.set, hrole]
  · have hlt : e.gameState.CommonPool < cost := by
      by_contra hcon
      rw [incurServiceCharge_of_le cost e (not_lt.mp hcon)] at h
      simp at h
    rw [incurServiceCharge_of_lt cost e hlt]

/-- C3 at concrete states: a charge of 10 on a pool of 100 (taken, the
president budget goes from 50 to 40) and on a pool of 5 (refused). -/
theorem incurServiceCharge_budget_witness :
    (incurServiceCharge 10 (sampleExecutive 100)).1 = true
    ∧ (incurServiceCharge 10 (sampleExecutive 100)).2.gameState.IIGORolesBudget.get "president"
        = 50 - 10
    ∧ (incurServiceCharge 10 (sampleExecutive 5)).1 = false
    ∧ (incurServiceCharge 10 (sampleExecutive 5)).2.gameState.IIGORolesBudget
        = (sampleExecutive 5).gameState.IIGORolesBudget :=
  ⟨by decide,
   ((incurServiceCharge_budget 10 (sampleExecutive 100)).2.1 (by decide)).1,
   by decide,
   (incurServiceCharge_budget 10 (sampleExecutive 5)).2.2 (by decide)⟩

/-- C4. With a president loaded whose `PaySpeaker` answers `ActionTaken = true`,
`ContentType = PresidentSpeakerSalary` and amount `a`, and the withdrawal of `a`
from the common pool succeeding, `sendSpeakerSalary` reduces the common pool by
exactly `a` and adds exactly `a` to the private balance of `SpeakerIDGlobal`, so
that the sum of the two is unchanged (no other balance and no budget entry
moves). In every other case (no president, `ActionTaken` false, another
`ContentType`, failed withdrawal) the game state is unchanged. -/
theorem sendSpeakerSalary_balances (env : Env R) (s : IIGO R) :
    (∀ p : President R, s.e.clientPresident = some p →
        p.PaySpeaker.ActionTaken = true →
        p.PaySpeaker.ContentType = PresidentReturnContentType.PresidentSpeakerSalary →
        (WithdrawFromCommonPool p.PaySpeaker.SpeakerSalary s.e.gameState).1.2 = true →
        (sendSpeakerSalary env s).2.e.gameState.CommonPool
            = s.e.gameState.CommonPool - p.PaySpeaker.SpeakerSalary
          ∧ (sendSpeakerSalary env s).2.e.gameState.ClientInfos.get env.SpeakerIDGlobal
            = s.e.gameState.ClientInfos.get env.SpeakerIDGlobal + p.PaySpeaker.SpeakerSalary
          ∧ (sendSpeakerSalary env s).2.e.gameState.CommonPool
              + (sendSpeakerSalary env s).2.e.gameState.ClientInfos.get env.SpeakerIDGlobal
            = s.e.gameState.CommonPool + s.e.gameState.ClientInfos.get env.SpeakerIDGlobal
          ∧ (∀ id : ClientID, id ≠ env.SpeakerIDGlobal →
              (sendSpeakerSalary env s).2.e.gameState.ClientInfos id
                = s.e.gameState.ClientInfos id)
          ∧ (sendSpeakerSalary env s).2.e.gameState.IIGORolesBudget
              = s.e.gameState.IIGORolesBudget)
    ∧ ((s.e.clientPresident = none
          ∨ ∃ p : President R, s.e.clientPresident = some p
              ∧ (p.PaySpeaker.ActionTaken = false
                ∨ p.PaySpeaker.ContentType ≠ PresidentReturnContentType.PresidentSpeakerSalary
                ∨ (WithdrawFromCommonPool p.PaySpeaker.SpeakerSalary s.e.gameState).1.2
                    = false)) →
        (sendSpeakerSalary env s).2.e.gameState = s.e.gameState) := by
  constructor
  · intro p hp hact hty hok
    have hle := (WithdrawFromCommonPool_ok_iff _ _).mp hok
    have hrun : (sendSpeakerSalary env s).2.e.gameState
        = depositIntoClientPrivatePool p.PaySpeaker.SpeakerSalary env.SpeakerIDGlobal
            { s.e.gameState with
              CommonPool := s.e.gameState.CommonPool - p.PaySpeaker.SpeakerSalary } := by
      unfold sendSpeakerSalary
      simp [hp, hact, hty, WithdrawFromCommonPool_of_le _ _ hle]
    rw [hrun]
    refine ⟨rfl, ?_, ?_, ?_, rfl⟩
    · simp [depositIntoClientPrivatePool, GoMap.get, GoMap.set]
    · simp [depositIntoClientPrivatePool, GoMap.get, GoMap.set]
    · intro id hid
      simp [depositIntoClientPrivatePool, GoMap.set, hid]
  · rintro (hnone | ⟨p, hp, hcase⟩)
    · unfold sendSpeakerSalary
      simp [hnone]
    · rcases hcase with hact | hty | hfail
      · unfold sendSpeakerSalary
        simp [hp, hact]
      · unfold sendSpeakerSalary
        simp [hp, hty]
      · have hw := WithdrawFromCommonPool_failed _ _ hfail
        unfold sendSpeakerSalary
        simp only [hp]
        split
        · simp [hw]
        · rfl

/-- C4 at concrete states: a salary of 3 paid out of a pool of 100 to island 2,
which owned 20; and no movement when no president is loaded. -/
theorem sendSpeakerSalary_balances_witness :
    (sendSpeakerSalary sampleEnv richIIGO).2.e.gameState.CommonPool = 100 - 3
    ∧ (sendSpeakerSalary sampleEnv richIIGO).2.e.gameState.ClientInfos.get 2 = 20 + 3
    ∧ (sendSpeakerSalary sampleEnv
          { richIIGO with e := { richIIGO.e with clientPresident := none } }).2.e.gameState
        = richIIGO.e.gameState :=
  ⟨((sendSpeakerSalary_balances sampleEnv richIIGO).1 samplePresident rfl rfl rfl
      (by decide)).1,
   ((sendSpeakerSalary_balances sampleEnv richIIGO).1 samplePresident rfl rfl rfl
      (by decide)).2.1,
   (sendSpeakerSalary_balances sampleEnv
      { richIIGO with e := { richIIGO.e with clientPresident := none } }).2 (Or.inl rfl)⟩

/-- C5. If the charge `GetRuleForSpeakerActionCost` cannot be withdrawn,
`getRuleForSpeaker` returns exactly `{ContentType: PresidentRuleProposal,
ProposedRule: "", ActionTaken: false}` (the other fields at their zero value)
and no call is logged; if the charge is withdrawn and a president is loaded, it
returns exactly what that president's `PickRuleToVote` gives for the stored
`RulesProposals`. In both cases `RulesProposals` is unchanged. -/
theorem getRuleForSpeaker_result (env : Env R) (s : IIGO R) :
    ((WithdrawFromCommonPool env.actionCost.GetRuleForSpeakerActionCost
          s.e.gameState).1.2 = false →
        (getRuleForSpeaker env s).1
            = Outcome.returned
                { ContentType := PresidentReturnContentType.PresidentRuleProposal
                  ProposedRule := ""
                  ResourceMap := GoMap.empty
                  SpeakerSalary := 0
                  ActionTaken := false }
          ∧ (getRuleForSpeaker env s).2.log = s.log
          ∧ (getRuleForSpeaker env s).2.e.RulesProposals = s.e.RulesProposals)
    ∧ (∀ p : President R, s.e.clientPresident = some p →
        (WithdrawFromCommonPool env.actionCost.GetRuleForSpeakerActionCost
          s.e.gameState).1.2 = true →
        (getRuleForSpeaker env s).1 = Outcome.returned (p.PickRuleToVote s.e.RulesProposals)
          ∧ (getRuleForSpeaker env s).2.e.RulesProposals = s.e.RulesProposals) := by
  constructor
  · intro hfail
    have hlt : s.e.gameState.CommonPool < env.actionCost.GetRuleForSpeakerActionCost := by
      by_contra hcon
      rw [WithdrawFromCommonPool_of_le _ _ (not_lt.mp hcon)] at hfail
      simp at hfail
    unfold getRuleForSpeaker
    rw [incurServiceCharge_of_lt _ _ hlt]
    exact ⟨rfl, rfl, rfl⟩
  · intro p hp hok
    have hle := (WithdrawFromCommonPool_ok_iff _ _).mp hok
    unfold getRuleForSpeaker
    rw [incurServiceCharge_of_le _ _ hle]
    simp [hp]

/-- C5 at concrete states: the refusal on a pool of 5, and the president's pick
among the stored proposals on a pool of 100. -/
theorem getRuleForSpeaker_result_witness :
    (getRuleForSpeaker sampleEnv poorIIGO).2.log = []
    ∧ (getRuleForSpeaker sampleEnv richIIGO).1
        = Outcome.returned (samplePresident.PickRuleToVote ["rule A"]) :=
  ⟨((getRuleForSpeaker_result sampleEnv poorIIGO).1 (by decide)).2.1,
   ((getRuleForSpeaker_result sampleEnv richIIGO).2 samplePresident rfl (by decide)).1⟩

end Ledger

/-! ## The executive: reset and loading a president -/

section Lifecycle

variable {R : Type} [LinearOrderedAddCommGroup R]

/-- C6. After `reset`, whatever the prior state and the string argument, the
executive has no role-holder, empty `ResourceRequests`, empty `RulesProposals`,
`speakerSalary` 0 and `ID` 0; the game state it points to is the one it pointed
to before; and a second `reset` changes nothing more. -/
theorem reset_zero_state (val val2 : String) (e : executive R) :
    (reset val e).clientPresident = none
    ∧ (reset val e).ResourceRequests = GoMap.empty
    ∧ (reset val e).RulesProposals = []
    ∧ (reset val e).speakerSalary = 0
    ∧ (reset val e).ID = 0
    ∧ (reset val e).gameState = e.gameState
    ∧ reset val2 (reset val e) = reset val e :=
  ⟨rfl, rfl, rfl, rfl, rfl, rfl, rfl⟩

end Lifecycle

section Loading

variable {R : Type}

/-- C7. `loadClientPresident` panics if and only if the president it is given is
nil, and then leaves the executive as it was; given a president it returns,
sets `clientPresident` to exactly that president and changes no other field. -/
theorem loadClientPresident_panics_iff_nil (clientPresidentPointer : Option (President R))
    (e : executive R) :
    ((loadClientPresident clientPresidentPointer e).1 = Outcome.panicked
        ↔ clientPresidentPointer = none)
    ∧ (clientPresidentPointer = none →
        (loadClientPresident clientPresidentPointer e).2 = e)
    ∧ (∀ p : President R, clientPresidentPointer = some p →
        (loadClientPresident clientPresidentPointer e).1 = Outcome.returned ()
        ∧ (loadClientPresident clientPresidentPointer e).2.clientPresident = some p
        ∧ (loadClientPresident clientPresidentPointer e).2.gameState = e.gameState
        ∧ (loadClientPresident clientPresidentPointer e).2.ID = e.ID
        ∧ (loadClientPresident clientPresidentPointer e).2.speakerSalary = e.speakerSalary
        ∧ (loadClientPresident clientPresidentPointer e).2.RulesProposals = e.RulesProposals
        ∧ (loadClientPresident clientPresidentPointer e).2.ResourceRequests
            = e.ResourceRequests) := by
  cases clientPresidentPointer with
  | none => simp [loadClientPresident]
  | some q =>
    refine ⟨by simp [loadClientPresident], by simp, ?_⟩
    intro p hp
    cases hp
    exact ⟨rfl, rfl, rfl, rfl, rfl, rfl, rfl⟩

/-- C7 at concrete inputs: a nil president on the sample executive (panic, the
loaded president stays), and the sample president on an executive that has been
reset. -/
theorem loadClientPresident_panics_iff_nil_witness :
    (loadClientPresident none (sampleExecutive 5)).1 = Outcome.panicked
    ∧ (loadClientPresident none (sampleExecutive 5)).2 = sampleExecutive 5
    ∧ (loadClientPresident (some samplePresident) (reset "" (sampleExecutive 5))).1
        = Outcome.returned () :=
  ⟨(loadClientPresident_panics_iff_nil none (sampleExecutive 5)).1.mpr rfl,
   (loadClientPresident_panics_iff_nil none (sampleExecutive 5)).2.1 rfl,
   ((loadClientPresident_panics_iff_nil (some samplePresident)
      (reset "" (sampleExecutive 5))).2.2 samplePresident rfl).1⟩

end Loading

/-! ## The judge: election trigger -/

/-- The model of `CallPresidentElection` passes every row of the table of
`TestCallPresidentElection`. -/
theorem CallPresidentElection_passes_test :
    ∀ tc ∈ electionCases, tc.passes allTeams = true := by
  decide

/-- C8. `CallPresidentElection` returns `HoldElection = true` exactly when
(monitoring was performed and its result is false) or (monitoring was not
performed, the term-limit rule is in play and `turnsInPower` exceeds the term
length of the president). In particular, without monitoring,
`turnsInPower = termLength` does not trigger an election, and a performed,
compliant monitoring never triggers one, whatever the term. -/
theorem CallPresidentElection_holds_iff (server : fakeServerHandle)
    (monitoring : MonitorResult) (turnsInPower : Int) (allIslands : List ClientID) :
    ((CallPresidentElection server monitoring turnsInPower allIslands).HoldElection = true
        ↔ (monitoring.Performed = true ∧ monitoring.Result = false)
          ∨ (monitoring.Performed = false ∧ server.ElectionRuleInPlay = true
              ∧ ((server.TermLengths.get Role.President : Nat) : Int) < turnsInPower))
    ∧ (monitoring.Performed = false →
        turnsInPower = ((server.TermLengths.get Role.President : Nat) : Int) →
        (CallPresidentElection server monitoring turnsInPower allIslands).HoldElection = false)
    ∧ (monitoring.Performed = true → monitoring.Result = true →
        (CallPresidentElection server monitoring turnsInPower allIslands).HoldElection
          = false) := by
  obtain ⟨performed, result⟩ := monitoring
  cases performed <;> cases result <;> simp [CallPresidentElection] <;> intro h _ <;>
    exact le_of_eq h

/-- C8 on rows of the test table: term length 5 reached but not exceeded, and a
compliant monitoring. -/
theorem CallPresidentElection_holds_iff_witness :
    (CallPresidentElection
        { TermLengths := (GoMap.empty : GoMap Role Nat).set Role.President 5
          ElectionRuleInPlay := true }
        { Performed := false, Result := false } 5 allTeams).HoldElection = false
    ∧ (CallPresidentElection
        { TermLengths := (GoMap.empty : GoMap Role Nat).set Role.President 3
          ElectionRuleInPlay := true }
        { Performed := true, Result := true } 2 allTeams).HoldElection = false :=
  ⟨(CallPresidentElection_holds_iff _ _ 5 allTeams).2.1 rfl (by decide),
   (CallPresidentElection_holds_iff _ _ 2 allTeams).2.2 rfl rfl⟩

/-! ## The judge: pardons -/

/-- The policy with the sample constants passes every row of the table of
`TestGetPardonedIslands`. -/
theorem GetPardonedIslands_passes_test :
    PassesTestGetPardonedIslands (GetPardonedIslands samplePolicy) := by
  intro tc htc
  simp only [pardonCases, List.mem_cons, List.mem_singleton, List.mem_nil_iff, or_false] at htc
  rcases htc with rfl | rfl | rfl | rfl <;>
    norm_num [GetPardonedIslands, pardonOne, roundBlocked, blocksRound, samplePolicy,
      pardonCaseEmpty, pardonCaseNoSanction, pardonCaseGetPardon, pardonCaseGetOnePardon,
      List.enum, List.enumFrom, NoSanction, SanctionTier1, SanctionTier4, Team1, Team2]

/-- What passing the table of `TestGetPardonedIslands` tells about the policy:
Tier1 is below the disqualifying tier, Tier4 is not, and Tier4 is not designated
as round-blocking. -/
theorem policy_of_passes_test (policy : PardonPolicy)
    (h : PassesTestGetPardonedIslands (GetPardonedIslands policy)) :
    SanctionTier1 < policy.disqualifyingTier
    ∧ policy.disqualifyingTier ≤ SanctionTier4
    ∧ policy.roundBlocking SanctionTier4 = false := by
  have h4 := h pardonCaseGetOnePardon (by simp [pardonCases])
  simp [GetPardonedIslands, pardonCaseGetOnePardon, pardonOne, roundBlocked, blocksRound,
    List.enum, List.enumFrom, NoSanction, SanctionTier1, SanctionTier4] at h4
  obtain ⟨⟨⟨h1, h61⟩, hblock⟩, h99⟩ := h4
  have hle : policy.disqualifyingTier ≤ 4 := by
    by_contra hcon
    have hdq := (h99 (not_le.mp hcon) (by linarith)).1
    exact absurd h1 (not_lt.mpr hdq)
  exact ⟨h1, hle, hblock.resolve_left (not_lt.mpr hle)⟩

theorem get?_enumFrom_map {α β : Type} (g : Nat × α → β) (l : List α) :
    ∀ (n i : Nat),
      ((List.enumFrom n l).map g).get? i = (l.get? i).map fun a => g (n + i, a) := by
  induction l with
  | nil => intro n i; simp
  | cons a rest ih =>
    intro n i
    cases i with
    | zero => simp [List.enumFrom]
    | succ k =>
      simp only [List.enumFrom, List.map_cons, List.get?_cons_succ, ih]
      have hidx : n + 1 + k = n + (k + 1) := by omega
      rw [hidx]

theorem any_enumFrom_eq_false (policy : PardonPolicy) (index : Nat) (l : List Sanction) :
    ∀ n : Nat,
      (∀ (j : Nat) (other : Sanction), l.get? j = some other → n + j ≠ index →
        blocksRound policy other = false) →
      (List.enumFrom n l).any (fun other => other.1 != index && blocksRound policy other.2)
        = false := by
  induction l with
  | nil => intro n _; rfl
  | cons a rest ih =>
    intro n hothers
    simp only [List.enumFrom, List.any_cons, Bool.or_eq_false_iff]
    constructor
    · by_cases hn : n = index
      · simp [hn]
      · have hblock := hothers 0 a rfl (by simpa using hn)
        simp [hblock]
    · apply ih (n + 1)
      intro j other hj hne
      exact hothers (j + 1) other (by simpa using hj) (by omega)

/-- The gate of clause (c) is open for an agent when no other sanction of the
round blocks the round. -/
theorem roundBlocked_eq_false (policy : PardonPolicy) (round : List Sanction) (index : Nat)
    (hothers : ∀ (j : Nat) (other : Sanction), round.get? j = some other → j ≠ index →
      blocksRound policy other = false) :
    roundBlocked policy round index = false := by
  unfold roundBlocked List.enum
  apply any_enumFrom_eq_false policy index round 0
  intro j other hj hne
  exact hothers j other hj (by omega)

/-- Reading a flag of the result: for a round stored under `key`, the flag at
position `index` is the verdict on the sanction at that position. -/
theorem pardonAt_GetPardonedIslands (policy : PardonPolicy) (trust : List ℚ)
    (currentSanctions : SanctionMap) (key : Int) (round : List Sanction) (index : Nat)
    (hround : currentSanctions.lookup key = some round) (hne : round ≠ []) :
    pardonAt (GetPardonedIslands policy trust currentSanctions) key index
      = (round.get? index).map fun sanction =>
          pardonOne policy trust index sanction && !roundBlocked policy round index := by
  induction currentSanctions with
  | nil => simp [List.lookup] at hround
  | cons entry rest ih =>
    obtain ⟨k, r⟩ := entry
    by_cases hk : key = k
    · subst hk
      have hr : r = round := by simpa [List.lookup] using hround
      subst hr
      have hnonempty : r.isEmpty = false := by
        cases r with
        | nil => exact absurd rfl hne
        | cons _ _ => rfl
      simp only [GetPardonedIslands, List.filter, hnonempty, Bool.not_false, List.map_cons,
        pardonAt, List.lookup, beq_self_eq_true, List.enum]
      rw [get?_enumFrom_map]
      simp
    · have hb : (key == k) = false := by simpa using hk
      have hrest : rest.lookup key = some round := by
        simpa [List.lookup, hb] using hround
      have ih2 := ih hrest
      unfold pardonAt GetPardonedIslands at ih2 ⊢
      by_cases hempty : r.isEmpty = true
      · simpa [List.filter, hempty] using ih2
      · have hempty2 : r.isEmpty = false := by simpa using hempty
        simpa [List.filter, hempty2, List.lookup, hb] using ih2

/-- C9 as stated fails. With the policy constants under which the model passes
every row of the repository's test, the round of the row "get one pardon"
(Tier1 with trust 0.61 next to Tier4 with trust 0.99) gives `true` for the Tier1
agent, which is what the test table expects there. With Tier4 designated as
round-blocking the model does give `false` for that agent, as the claim says,
but no policy that designates Tier4 as round-blocking passes the test. -/
theorem GetPardonedIslands_tier4_does_not_block :
    PassesTestGetPardonedIslands (GetPardonedIslands samplePolicy)
    ∧ GetPardonedIslands samplePolicy [61 / 100, 99 / 100]
        [(0, [ { ClientID := Team1, SanctionTier := SanctionTier1, TurnsLeft := 3 },
               { ClientID := Team2, SanctionTier := SanctionTier4, TurnsLeft := 2 } ])]
        = [(0, [true, false])]
    ∧ pardonAt pardonCaseGetOnePardon.pardons 0 0 = some true
    ∧ GetPardonedIslands blockingPolicy [61 / 100, 99 / 100]
        [(0, [ { ClientID := Team1, SanctionTier := SanctionTier1, TurnsLeft := 3 },
               { ClientID := Team2, SanctionTier := SanctionTier4, TurnsLeft := 2 } ])]
        = [(0, [false, false])]
    ∧ (¬ ∃ policy : PardonPolicy, policy.roundBlocking SanctionTier4 = true
        ∧ PassesTestGetPardonedIslands (GetPardonedIslands policy)) := by
  refine ⟨GetPardonedIslands_passes_test, ?_, by decide, ?_, ?_⟩
  · norm_num [GetPardonedIslands, pardonOne, roundBlocked, blocksRound, samplePolicy,
      List.enum, List.enumFrom, NoSanction, SanctionTier1, SanctionTier4, Team1, Team2]
  · norm_num [GetPardonedIslands, pardonOne, roundBlocked, blocksRound, blockingPolicy,
      List.enum, List.enumFrom, NoSanction, SanctionTier1, SanctionTier4, Team1, Team2]
  · rintro ⟨policy, hblocking, hpasses⟩
    rw [(policy_of_passes_test policy hpasses).2.2] at hblocking
    exact Bool.false_ne_true hblocking

/-- C9 as amended. Under any policy constants with which `GetPardonedIslands`
passes the repository's test, and for every sanction map, round and trust
vector: a Tier1 sanction whose agent has trust above the pardon threshold is
pardoned when every other sanction of its round is a Tier4 sanction or at most
Tier1, so with a co-occurring Tier4 sanction just as with none (the Tier4
sanction does not block the round); and a Tier4 entry itself is never
pardoned. -/
theorem GetPardonedIslands_pardons_tier1_beside_tier4 (policy : PardonPolicy)
    (hpasses : PassesTestGetPardonedIslands (GetPardonedIslands policy))
    (trust : List ℚ) (currentSanctions : SanctionMap) (key : Int) (round : List Sanction)
    (hround : currentSanctions.lookup key = some round) :
    (∀ (index : Nat) (sanction : Sanction) (t : ℚ),
        round.get? index = some sanction →
        sanction.SanctionTier = SanctionTier1 →
        trust.get? index = some t → policy.threshold < t →
        (∀ (j : Nat) (other : Sanction), round.get? j = some other → j ≠ index →
          other.SanctionTier = SanctionTier4 ∨ other.SanctionTier ≤ SanctionTier1) →
        pardonAt (GetPardonedIslands policy trust currentSanctions) key index = some true)
    ∧ (∀ (index : Nat) (sanction : Sanction),
        round.get? index = some sanction →
        sanction.SanctionTier = SanctionTier4 →
        pardonAt (GetPardonedIslands policy trust currentSanctions) key index
          = some false) := by
  obtain ⟨h1, h4, hnoblock⟩ := policy_of_passes_test policy hpasses
  constructor
  · intro index sanction t hget htier htrust hthreshold hothers
    have hne : round ≠ [] := by
      intro hnil
      rw [hnil] at hget
      simp at hget
    rw [pardonAt_GetPardonedIslands policy trust currentSanctions key round index hround hne,
      hget]
    have hgate : roundBlocked policy round index = false := by
      apply roundBlocked_eq_false
      intro j other hj hjne
      rcases hothers j other hj hjne with h4tier | hlow
      · simp [blocksRound, h4tier, hnoblock]
      · have hlt : other.SanctionTier < policy.disqualifyingTier := lt_of_le_of_lt hlow h1
        simp [blocksRound, hlt]
    have htrust2 : trust[index]? = some t := by simpa using htrust
    have hbelow : sanction.SanctionTier < policy.disqualifyingTier := by
      rw [htier]
      exact h1
    simp [pardonOne, hbelow, htrust2, hthreshold, hgate, htier, SanctionTier1, NoSanction]
    exact h1
  · intro index sanction hget htier
    have hne : round ≠ [] := by
      intro hnil
      rw [hnil] at hget
      simp at hget
    rw [pardonAt_GetPardonedIslands policy trust currentSanctions key round index hround hne,
      hget]
    have hnot : ¬ SanctionTier4 < policy.disqualifyingTier := not_lt.mpr h4
    simp [pardonOne, htier, hnot]

/-- C9 as amended, at the sample constants and on the round of the row "get one
pardon": the Tier1 agent (trust 0.61 above the threshold 0.6) is pardoned next
to the Tier4 sanction, and the Tier4 entry is not pardoned. -/
theorem GetPardonedIslands_pardons_tier1_beside_tier4_witness :
    PassesTestGetPardonedIslands (GetPardonedIslands samplePolicy)
    ∧ pardonAt (GetPardonedIslands samplePolicy pardonCaseGetOnePardon.trust
        pardonCaseGetOnePardon.sanctions) 0 0 = some true
    ∧ pardonAt (GetPardonedIslands samplePolicy pardonCaseGetOnePardon.trust
        pardonCaseGetOnePardon.sanctions) 0 1 = some false :=
  ⟨by
      intro tc htc
      simp only [pardonCases, List.mem_cons, List.mem_singleton, List.mem_nil_iff,
        or_false] at htc
      rcases htc with rfl | rfl | rfl | rfl <;>
        norm_num [GetPardonedIslands, pardonOne, roundBlocked, blocksRound, samplePolicy,
          pardonCaseEmpty, pardonCaseNoSanction, pardonCaseGetPardon, pardonCaseGetOnePardon,
          List.enum, List.enumFrom, NoSanction, SanctionTier1, SanctionTier4, Team1, Team2],
   (GetPardonedIslands_pardons_tier1_beside_tier4 samplePolicy
      (by
        intro tc htc
        simp only [pardonCases, List.mem_cons, List.mem_singleton, List.mem_nil_iff,
          or_false] at htc
        rcases htc with rfl | rfl | rfl | rfl <;>
          norm_num [GetPardonedIslands, pardonOne, roundBlocked, blocksRound, samplePolicy,
            pardonCaseEmpty, pardonCaseNoSanction, pardonCaseGetPardon, pardonCaseGetOnePardon,
            List.enum, List.enumFrom, NoSanction, SanctionTier1, SanctionTier4, Team1, Team2])
      pardonCaseGetOnePardon.trust pardonCaseGetOnePardon.sanctions 0
      [ { ClientID := Team1, SanctionTier := SanctionTier1, TurnsLeft := 3 },
        { ClientID := Team2, SanctionTier := SanctionTier4, TurnsLeft := 2 } ] rfl).1
      0 { ClientID := Team1, SanctionTier := SanctionTier1, TurnsLeft := 3 } (61 / 100)
      rfl rfl rfl (by norm_num [samplePolicy])
      (by
        intro j other hj hjne
        match j, hj, hjne with
        | 0, _, hjne => exact absurd rfl hjne
        | 1, hj, _ =>
          left
          simp at hj
          rw [← hj]
        | (k + 2), hj, _ => simp at hj),
   (GetPardonedIslands_pardons_tier1_beside_tier4 samplePolicy
      (by
        intro tc htc
        simp only [pardonCases, List.mem_cons, List.mem_singleton, List.mem_nil_iff,
          or_false] at htc
        rcases htc with rfl | rfl | rfl | rfl <;>
          norm_num [GetPardonedIslands, pardonOne, roundBlocked, blocksRound, samplePolicy,
            pardonCaseEmpty, pardonCaseNoSanction, pardonCaseGetPardon, pardonCaseGetOnePardon,
            List.enum, List.enumFrom, NoSanction, SanctionTier1, SanctionTier4, Team1, Team2])
      pardonCaseGetOnePardon.trust pardonCaseGetOnePardon.sanctions 0
      [ { ClientID := Team1, SanctionTier := SanctionTier1, TurnsLeft := 3 },
        { ClientID := Team2, SanctionTier := SanctionTier4, TurnsLeft := 2 } ] rfl).2
      1 { ClientID := Team2, SanctionTier := SanctionTier4, TurnsLeft := 2 } rfl rfl⟩

/-! ## The history ledger -/

theorem appendPairs_lookup (client : ClientID) (pairs : List VariableValuePair)
    (g : List (ClientID × List VariableValuePair)) (k : ClientID) :
    lookupPairs k (appendPairs client pairs g)
      = if k = client then some ((lookupPairs client g).getD [] ++ pairs)
        else lookupPairs k g := by
  induction g with
  | nil =>
    by_cases hk : k = client
    · simp [appendPairs, lookupPairs, hk]
    · have hk2 : ¬ client = k := fun h => hk h.symm
      simp [appendPairs, lookupPairs, hk, hk2]
  | cons entry rest ih =>
    obtain ⟨c, ps⟩ := entry
    by_cases hc : c = client
    · subst hc
      by_cases hk : k = c
      · subst hk
        simp [appendPairs, lookupPairs]
      · have hk2 : ¬ c = k := fun h => hk h.symm
        simp [appendPairs, lookupPairs, hk, hk2]
    · by_cases hk : k = client
      · subst hk
        simp [appendPairs, lookupPairs, hc, ih]
      · by_cases hkc : c = k
        · subst hkc
          simp [appendPairs, lookupPairs, hc]
        · simp [appendPairs, lookupPairs, hc, hkc, ih, hk]

theorem appendPairs_keys (client : ClientID) (pairs : List VariableValuePair)
    (g : List (ClientID × List VariableValuePair)) (k : ClientID) :
    k ∈ (appendPairs client pairs g).map Prod.fst ↔ k = client ∨ k ∈ g.map Prod.fst := by
  induction g with
  | nil => simp [appendPairs]
  | cons entry rest ih =>
    obtain ⟨c, ps⟩ := entry
    by_cases hc : c = client
    · subst hc
      simp [appendPairs]
    · simp only [appendPairs, hc, if_false, List.map_cons, List.mem_cons, ih]
      tauto

theorem appendPairs_nodup (client : ClientID) (pairs : List VariableValuePair)
    (g : List (ClientID × List VariableValuePair)) (h : (g.map Prod.fst).Nodup) :
    ((appendPairs client pairs g).map Prod.fst).Nodup := by
  induction g with
  | nil => simp [appendPairs]
  | cons entry rest ih =>
    obtain ⟨c, ps⟩ := entry
    rw [List.map_cons, List.nodup_cons] at h
    by_cases hc : c = client
    · subst hc
      simp only [appendPairs, if_true, List.map_cons, List.nodup_cons]
      exact h
    · simp only [appendPairs, hc, if_false, List.map_cons, List.nodup_cons]
      refine ⟨?_, ih h.2⟩
      rw [appendPairs_keys]
      rintro (hcl | hmem)
      · exact hc hcl
      · exact h.1 hmem

theorem pairsOf_cons (acc : Accountability) (rest : List Accountability) (k : ClientID) :
    pairsOf (acc :: rest) k
      = if acc.ClientID = k then acc.Pairs ++ pairsOf rest k else pairsOf rest k := by
  by_cases h : acc.ClientID = k <;> simp [pairsOf, List.filter, h]

theorem pairsOf_of_not_mem (records : List Accountability) (k : ClientID)
    (h : k ∉ records.map fun acc => acc.ClientID) : pairsOf records k = [] := by
  induction records with
  | nil => rfl
  | cons acc rest ih =>
    simp only [List.map_cons, List.mem_cons, not_or] at h
    rw [pairsOf_cons, if_neg (fun hk => h.1 hk.symm), ih h.2]

theorem groupFold_nodup (records : List Accountability) :
    ∀ g0 : List (ClientID × List VariableValuePair), (g0.map Prod.fst).Nodup →
      ((records.foldl (fun grouped acc => appendPairs acc.ClientID acc.Pairs grouped) g0).map
        Prod.fst).Nodup := by
  induction records with
  | nil => intro g0 h; exact h
  | cons acc rest ih =>
    intro g0 h
    exact ih _ (appendPairs_nodup acc.ClientID acc.Pairs g0 h)

theorem groupFold_lookup (records : List Accountability) :
    ∀ (g0 : List (ClientID × List VariableValuePair)) (k : ClientID),
      lookupPairs k
          (records.foldl (fun grouped acc => appendPairs acc.ClientID acc.Pairs grouped) g0)
        = if k ∈ records.map (fun acc => acc.ClientID) then
            some ((lookupPairs k g0).getD [] ++ pairsOf records k)
          else lookupPairs k g0 := by
  induction records with
  | nil => intro g0 k; simp
  | cons acc rest ih =>
    intro g0 k
    rw [List.foldl_cons, ih, appendPairs_lookup, pairsOf_cons]
    by_cases hk : k = acc.ClientID
    · subst hk
      by_cases hrest : acc.ClientID ∈ rest.map fun a => a.ClientID
      · simp [hrest, List.append_assoc]
      · simp [hrest, pairsOf_of_not_mem rest _ hrest]
    · have hk2 : ¬ acc.ClientID = k := fun h => hk h.symm
      by_cases hrest : k ∈ rest.map fun a => a.ClientID
      · simp [hrest, hk, hk2]
      · simp [hrest, hk, hk2]

theorem groupByClient_lookup (records : List Accountability) (k : ClientID) :
    lookupPairs k (groupByClient records)
      = if k ∈ records.map (fun acc => acc.ClientID) then some (pairsOf records k)
        else none := by
  unfold groupByClient
  rw [groupFold_lookup]
  simp [lookupPairs]

theorem groupByClient_nodup (records : List Accountability) :
    ((groupByClient records).map Prod.fst).Nodup :=
  groupFold_nodup records [] (by simp)

theorem buildStep_apply (buildHistoryInfo : Builder) (lieCounts : GoMap ClientID Int)
    (m : GoMap ClientID judgeHistoryInfo) (c : ClientID) (ps : List VariableValuePair)
    (k : ClientID) :
    buildStep buildHistoryInfo lieCounts m (c, ps) k
      = if k = c ∧ (buildHistoryInfo ps).2 = true then
          some { (buildHistoryInfo ps).1 with Lied := lieCounts.get c }
        else m k := by
  unfold buildStep
  rcases hb : buildHistoryInfo ps with ⟨got, ok⟩
  cases ok
  · simp
  · by_cases hk : k = c <;> simp [GoMap.set, hk]

theorem buildFold_apply (buildHistoryInfo : Builder) (lieCounts : GoMap ClientID Int) :
    ∀ (g : List (ClientID × List VariableValuePair)) (m0 : GoMap ClientID judgeHistoryInfo),
      (g.map Prod.fst).Nodup → ∀ k : ClientID,
        (g.foldl (buildStep buildHistoryInfo lieCounts) m0) k
          = match lookupPairs k g with
            | none => m0 k
            | some ps =>
              if (buildHistoryInfo ps).2 = true then
                some { (buildHistoryInfo ps).1 with Lied := lieCounts.get k }
              else m0 k := by
  intro g
  induction g with
  | nil => intro m0 _ k; rfl
  | cons entry rest ih =>
    obtain ⟨c, ps⟩ := entry
    intro m0 hnodup k
    rw [List.map_cons, List.nodup_cons] at hnodup
    rw [List.foldl_cons, ih _ hnodup.2 k]
    by_cases hck : c = k
    · subst hck
      have hnone : lookupPairs c rest = none := by
        have hc := hnodup.1
        clear ih hnodup
        induction rest with
        | nil => rfl
        | cons e r ihr =>
          obtain ⟨c2, ps2⟩ := e
          simp only [List.map_cons, List.mem_cons, not_or] at hc
          have hne : ¬ c2 = c := fun h => hc.1 h.symm
          simp [lookupPairs, hne, ihr hc.2]
      simp [lookupPairs, hnone, buildStep_apply]
    · have hkc : ¬ k = c := fun h => hck h.symm
      simp only [lookupPairs, hck, if_false, buildStep_apply, hkc, false_and]

/-- The per-turn map that `saveHistoryInfo` writes is the one `makeHistory`
expects: grouping and building, then reading a client, is building from all the
pairs of that client. -/
theorem buildTurn_groupByClient (buildHistoryInfo : Builder) (records : List Accountability)
    (lieCounts : GoMap ClientID Int) :
    buildTurn buildHistoryInfo lieCounts (groupByClient records)
      = expectedTurn buildHistoryInfo records lieCounts := by
  funext k
  unfold buildTurn expectedTurn
  rw [buildFold_apply buildHistoryInfo lieCounts _ _ (groupByClient_nodup records) k,
    groupByClient_lookup]
  by_cases hk : k ∈ records.map fun acc => acc.ClientID
  · simp only [hk, if_true]
    rcases hb : buildHistoryInfo (pairsOf records k) with ⟨got, ok⟩
    cases ok <;> simp [GoMap.empty]
  · simp only [hk, if_false]
    rfl

theorem makeHistory_fold (buildHistoryInfo : Builder) (lieCounts : GoMap ClientID Int)
    (clientVars : List (ClientID × List VariableValuePair)) :
    ∀ (history : List Accountability) (expected : GoMap ClientID judgeHistoryInfo),
      clientVars.foldl
          (fun state kv =>
            (state.1 ++ kv.2.map (fun newPair => { ClientID := kv.1, Pairs := [newPair] }),
             match buildHistoryInfo kv.2 with
             | (got, true) => state.2.set kv.1 { got with Lied := lieCounts.get kv.1 }
             | (_, false) => state.2))
          (history, expected)
        = (history ++ clientVars.flatMap (fun kv =>
              kv.2.map (fun newPair => ({ ClientID := kv.1, Pairs := [newPair] } : Accountability))),
           clientVars.foldl (buildStep buildHistoryInfo lieCounts) expected) := by
  induction clientVars with
  | nil => intro history expected; simp
  | cons kv rest ih =>
    intro history expected
    rw [List.foldl_cons, ih]
    simp [buildStep, List.append_assoc]

theorem pairsOf_append (a b : List Accountability) (k : ClientID) :
    pairsOf (a ++ b) k = pairsOf a k ++ pairsOf b k := by
  induction a with
  | nil => simp [pairsOf]
  | cons acc rest ih =>
    rw [List.cons_append, pairsOf_cons, pairsOf_cons, ih]
    by_cases h : acc.ClientID = k <;> simp [h]

theorem pairsOf_single_records (c k : ClientID) (ps : List VariableValuePair) :
    pairsOf (ps.map fun newPair => ({ ClientID := c, Pairs := [newPair] } : Accountability)) k
      = if c = k then ps else [] := by
  induction ps with
  | nil => simp [pairsOf]
  | cons pair rest ih =>
    rw [List.map_cons, pairsOf_cons, ih]
    by_cases h : c = k <;> simp [h]

theorem lookupPairs_of_not_mem (k : ClientID) (g : List (ClientID × List VariableValuePair))
    (h : k ∉ g.map Prod.fst) : lookupPairs k g = none := by
  induction g with
  | nil => rfl
  | cons entry rest ih =>
    obtain ⟨c, ps⟩ := entry
    simp only [List.map_cons, List.mem_cons, not_or] at h
    have hne : ¬ c = k := fun hc => h.1 hc.symm
    simp [lookupPairs, hne, ih h.2]

theorem lookupPairs_mem (k : ClientID) (g : List (ClientID × List VariableValuePair))
    (ps : List VariableValuePair) (h : lookupPairs k g = some ps) : (k, ps) ∈ g := by
  induction g with
  | nil => simp [lookupPairs] at h
  | cons entry rest ih =>
    obtain ⟨c, qs⟩ := entry
    by_cases hc : c = k
    · subst hc
      simp [lookupPairs] at h
      simp [h]
    · simp [lookupPairs, hc] at h
      exact List.mem_cons_of_mem _ (ih h)

/-- The records that `makeHistory` emits give back, client by client, the pairs
it started from. -/
theorem pairsOf_makeHistory (clientVars : List (ClientID × List VariableValuePair))
    (hkeys : (clientVars.map Prod.fst).Nodup) (k : ClientID) :
    pairsOf (clientVars.flatMap fun kv =>
        kv.2.map fun newPair => ({ ClientID := kv.1, Pairs := [newPair] } : Accountability)) k
      = (lookupPairs k clientVars).getD [] := by
  induction clientVars with
  | nil => simp [pairsOf, lookupPairs]
  | cons entry rest ih =>
    obtain ⟨c, ps⟩ := entry
    rw [List.map_cons, List.nodup_cons] at hkeys
    rw [List.flatMap_cons, pairsOf_append, pairsOf_single_records, ih hkeys.2]
    by_cases hc : c = k
    · subst hc
      simp [lookupPairs, lookupPairs_of_not_mem c rest hkeys.1]
    · simp [lookupPairs, hc]

theorem mem_clients_makeHistory (clientVars : List (ClientID × List VariableValuePair))
    (k : ClientID) :
    k ∈ (clientVars.flatMap fun kv =>
          kv.2.map fun newPair => ({ ClientID := kv.1, Pairs := [newPair] } : Accountability)).map
        (fun acc => acc.ClientID)
      ↔ ∃ ps, (k, ps) ∈ clientVars ∧ ps ≠ [] := by
  simp only [List.mem_map, List.mem_flatMap]
  constructor
  · rintro ⟨acc, ⟨kv, hkv, pair, hpair, rfl⟩, rfl⟩
    exact ⟨kv.2, hkv, List.ne_nil_of_mem hpair⟩
  · rintro ⟨ps, hmem, hne⟩
    obtain ⟨pair, rest, rfl⟩ := List.exists_cons_of_ne_nil hne
    exact ⟨{ ClientID := k, Pairs := [pair] },
      ⟨(k, pair :: rest), hmem, pair, List.mem_cons_self _ _, rfl⟩, rfl⟩

/-- The model of `saveHistoryInfo` passes the per-turn check of
`TestSaveHistoryInfo`: on the history that `makeHistory` builds from a map of
clients (distinct keys) with at least one variable each, the entry saved for the
turn is the `expected` map of `makeHistory`. -/
theorem saveHistoryInfo_passes_test (buildHistoryInfo : Builder)
    (clientVars : List (ClientID × List VariableValuePair)) (lieCounts : GoMap ClientID Int)
    (turn : Nat) (h0 : SavedHistory)
    (hkeys : (clientVars.map Prod.fst).Nodup) (hvars : ∀ kv ∈ clientVars, kv.2 ≠ []) :
    saveHistoryInfo buildHistoryInfo (makeHistory buildHistoryInfo clientVars lieCounts).1
        lieCounts turn h0 turn
      = some (makeHistory buildHistoryInfo clientVars lieCounts).2 := by
  have hmake := makeHistory_fold buildHistoryInfo lieCounts clientVars [] GoMap.empty
  unfold makeHistory
  rw [hmake]
  simp only [List.nil_append]
  have hsave : ∀ records : List Accountability,
      saveHistoryInfo buildHistoryInfo records lieCounts turn h0 turn
        = some (expectedTurn buildHistoryInfo records lieCounts) := by
    intro records
    simp [saveHistoryInfo, GoMap.set, buildTurn_groupByClient]
  rw [hsave]
  congr 1
  funext k
  rw [buildFold_apply buildHistoryInfo lieCounts clientVars GoMap.empty hkeys k]
  unfold expectedTurn
  rw [pairsOf_makeHistory clientVars hkeys k]
  cases hlook : lookupPairs k clientVars with
  | none =>
    have hnot : ¬ k ∈ (clientVars.flatMap fun kv =>
          kv.2.map fun newPair =>
            ({ ClientID := kv.1, Pairs := [newPair] } : Accountability)).map
        (fun acc => acc.ClientID) := by
      rw [mem_clients_makeHistory]
      rintro ⟨ps, hmem, _⟩
      have hkey : k ∈ clientVars.map Prod.fst := List.mem_map.mpr ⟨(k, ps), hmem, rfl⟩
      clear hmake
      induction clientVars with
      | nil => simp at hkey
      | cons entry rest ih =>
        obtain ⟨c, qs⟩ := entry
        by_cases hc : c = k
        · simp [lookupPairs, hc] at hlook
        · simp only [lookupPairs, hc, if_false] at hlook
          rw [List.map_cons, List.nodup_cons] at hkeys
          have hmem2 : (k, ps) ∈ rest := by
            rcases List.mem_cons.mp hmem with heq | hin
            · exact absurd (congrArg Prod.fst heq).symm hc
            · exact hin
          exact ih hkeys.2 (fun kv hkv => hvars kv (List.mem_cons_of_mem _ hkv)) hlook hmem2
            (List.mem_map.mpr ⟨(k, ps), hmem2, rfl⟩)
    simp only [hnot, if_false]
    rfl
  | some ps =>
    have hmem := lookupPairs_mem k clientVars ps hlook
    have hin : k ∈ (clientVars.flatMap fun kv =>
          kv.2.map fun newPair =>
            ({ ClientID := kv.1, Pairs := [newPair] } : Accountability)).map
        (fun acc => acc.ClientID) := by
      rw [mem_clients_makeHistory]
      exact ⟨ps, hmem, hvars (k, ps) hmem⟩
    simp only [hin, if_true, Option.getD_some]
    rcases hb : buildHistoryInfo ps with ⟨got, ok⟩
    cases ok <;> simp [GoMap.empty]

theorem saveAll_cons (buildHistoryInfo : Builder) (call : SaveCall) (calls : List SaveCall)
    (h0 : SavedHistory) :
    saveAll buildHistoryInfo (call :: calls) h0
      = saveAll buildHistoryInfo calls
          (saveHistoryInfo buildHistoryInfo call.records call.lieCounts call.turn h0) :=
  rfl

theorem saveAll_append (buildHistoryInfo : Builder) (earlier later : List SaveCall)
    (h0 : SavedHistory) :
    saveAll buildHistoryInfo (earlier ++ later) h0
      = saveAll buildHistoryInfo later (saveAll buildHistoryInfo earlier h0) := by
  unfold saveAll
  rw [List.foldl_append]

/-- Saving a turn leaves the entry of every other turn as it was. -/
theorem saveHistoryInfo_other_turn (buildHistoryInfo : Builder)
    (records : List Accountability) (lieCounts : GoMap ClientID Int) (turn t : Nat)
    (h0 : SavedHistory) (ht : t ≠ turn) :
    saveHistoryInfo buildHistoryInfo records lieCounts turn h0 t = h0 t := by
  simp [saveHistoryInfo, GoMap.set, ht]

theorem saveHistoryInfo_same_turn (buildHistoryInfo : Builder)
    (records : List Accountability) (lieCounts : GoMap ClientID Int) (turn : Nat)
    (h0 : SavedHistory) :
    saveHistoryInfo buildHistoryInfo records lieCounts turn h0 turn
      = some (expectedTurn buildHistoryInfo records lieCounts) := by
  simp [saveHistoryInfo, GoMap.set, buildTurn_groupByClient]

theorem saveAll_of_not_mem (buildHistoryInfo : Builder) (calls : List SaveCall) :
    ∀ (h0 : SavedHistory) (t : Nat), t ∉ calls.map (fun call => call.turn) →
      saveAll buildHistoryInfo calls h0 t = h0 t := by
  induction calls with
  | nil => intro h0 t _; rfl
  | cons call rest ih =>
    intro h0 t ht
    simp only [List.map_cons, List.mem_cons, not_or] at ht
    rw [saveAll_cons, ih _ t ht.2, saveHistoryInfo_other_turn _ _ _ _ _ _ ht.1]

theorem saveAll_of_mem (buildHistoryInfo : Builder) (calls : List SaveCall) :
    ∀ (h0 : SavedHistory), calls.Pairwise (fun a b => a.turn < b.turn) →
      ∀ call ∈ calls, saveAll buildHistoryInfo calls h0 call.turn
        = some (expectedTurn buildHistoryInfo call.records call.lieCounts) := by
  induction calls with
  | nil => intro h0 _ call hcall; cases hcall
  | cons first rest ih =>
    intro h0 hsorted call hcall
    rw [List.pairwise_cons] at hsorted
    rw [saveAll_cons]
    rcases List.mem_cons.mp hcall with rfl | hrest
    · have hnot : call.turn ∉ rest.map (fun c => c.turn) := by
        intro hmem
        obtain ⟨other, hother, hturn⟩ := List.mem_map.mp hmem
        have := hsorted.1 other hother
        omega
      rw [saveAll_of_not_mem buildHistoryInfo rest _ _ hnot, saveHistoryInfo_same_turn]
    · exact ih _ hsorted.2 call hrest

/-- C10. After any sequence of `saveHistoryInfo` calls with strictly increasing
turn numbers, starting from an empty history, the saved history maps the turn of
every call to exactly the `ClientID → HistoryInfo` map that `buildHistoryInfo`
yields for that call's records grouped per client (`Lied` set to the supplied
lie count, clients that fail the `ok` check absent); it holds no other turn; and
the entry of a turn is the one it had when only the calls up to any later point
had been made. -/
theorem saveHistoryInfo_sequence (buildHistoryInfo : Builder) (calls : List SaveCall)
    (h : calls.Pairwise fun a b => a.turn < b.turn) :
    (∀ call ∈ calls, saveAll buildHistoryInfo calls GoMap.empty call.turn
        = some (expectedTurn buildHistoryInfo call.records call.lieCounts))
    ∧ (∀ t : Nat, t ∉ calls.map (fun call => call.turn) →
        saveAll buildHistoryInfo calls GoMap.empty t = none)
    ∧ (∀ earlier later : List SaveCall, calls = earlier ++ later →
        ∀ call ∈ earlier, saveAll buildHistoryInfo calls GoMap.empty call.turn
          = saveAll buildHistoryInfo earlier GoMap.empty call.turn) := by
  refine ⟨saveAll_of_mem buildHistoryInfo calls GoMap.empty h, fun t ht => ?_, ?_⟩
  · rw [saveAll_of_not_mem buildHistoryInfo calls GoMap.empty t ht]
    rfl
  · rintro earlier later rfl call hcall
    rw [saveAll_append]
    apply saveAll_of_not_mem
    intro hmem
    obtain ⟨other, hother, hturn⟩ := List.mem_map.mp hmem
    have := (List.pairwise_append.mp h).2.2 call hcall other hother
    omega

/-- C10 on the two sample calls (turns 13 and 14): turn 13 holds the result of
the first call, and no entry exists for turn 12. In that result team 1, whose
records cover the required fields, has its summary with `Lied = 1`, and team 3,
which reported its resources only, has no entry. -/
theorem saveHistoryInfo_sequence_witness :
    (sampleCalls.Pairwise fun a b => a.turn < b.turn)
    ∧ saveAll buildHistoryInfo sampleCalls GoMap.empty 13
        = some (expectedTurn buildHistoryInfo (sampleRecords 1) sampleLieCounts)
    ∧ saveAll buildHistoryInfo sampleCalls GoMap.empty 12 = none
    ∧ expectedTurn buildHistoryInfo (sampleRecords 1) sampleLieCounts Team1
        = some { Resources := ⟨10, 12⟩, Taxation := ⟨3, 2⟩, Allocation := ⟨0, 0⟩, Lied := 1 }
    ∧ expectedTurn buildHistoryInfo (sampleRecords 1) sampleLieCounts Team3 = none :=
  ⟨by simp [sampleCalls],
   (saveHistoryInfo_sequence buildHistoryInfo sampleCalls (by simp [sampleCalls])).1
     { records := sampleRecords 1, lieCounts := sampleLieCounts, turn := 13 }
     (by simp [sampleCalls]),
   (saveHistoryInfo_sequence buildHistoryInfo sampleCalls (by simp [sampleCalls])).2.1 12
     (by simp [sampleCalls]),
   by simp [expectedTurn, buildHistoryInfo, sampleRecords, pairsOf, hasField, lastValue,
     Team1, Team3, sampleLieCounts, GoMap.get, GoMap.set, GoMap.empty, List.find?],
   by simp [expectedTurn, buildHistoryInfo, sampleRecords, pairsOf, hasField, Team1, Team3]⟩

/-! ## The executive: the result of paying the speaker -/

section SalaryAnyPool

variable {R : Type}

theorem sendSpeakerSalaryWith_fst (withdrawFrom : R → GameState R → (R × Bool) × GameState R)
    (depositInto : R → ClientID → GameState R → GameState R) (env : Env R) (s : IIGO R) :
    (sendSpeakerSalaryWith withdrawFrom depositInto env s).1
      = Outcome.returned (some "Cannot perform sendJudgeSalary") := by
  unfold sendSpeakerSalaryWith
  cases s.e.clientPresident with
  | none => rfl
  | some p =>
    simp only
    split
    · split <;> rfl
    · rfl

end SalaryAnyPool

section Salary

variable {R : Type} [LinearOrderedAddCommGroup R]

/-- C11. For every executive state, with or without a president loaded, and
whatever the president answers and the common pool does, `sendSpeakerSalary`
returns the non-nil error "Cannot perform sendJudgeSalary". This holds with the
common pool as modelled and with any other withdrawal and depositInto in its place,
hence also when the salary was withdrawn and deposited. -/
theorem sendSpeakerSalary_always_errors (env : Env R) (s : IIGO R) :
    (sendSpeakerSalary env s).1 = Outcome.returned (some "Cannot perform sendJudgeSalary")
    ∧ (∀ (withdrawFrom : R → GameState R → (R × Bool) × GameState R)
        (depositInto : R → ClientID → GameState R → GameState R),
        (sendSpeakerSalaryWith withdrawFrom depositInto env s).1
          = Outcome.returned (some "Cannot perform sendJudgeSalary"))
    ∧ sendSpeakerSalaryWith WithdrawFromCommonPool depositIntoClientPrivatePool env s
        = sendSpeakerSalary env s :=
  ⟨sendSpeakerSalaryWith_fst WithdrawFromCommonPool depositIntoClientPrivatePool env s,
   fun withdrawFrom depositInto => sendSpeakerSalaryWith_fst withdrawFrom depositInto env s,
   rfl⟩

/-- C11 at a concrete state: the sample president is loaded, the salary of 3 has
left the pool of 100 and reached island 2, and the call still returns the
error; so does the call with no president loaded. -/
theorem sendSpeakerSalary_always_errors_witness :
    (sendSpeakerSalary sampleEnv richIIGO).1
        = Outcome.returned (some "Cannot perform sendJudgeSalary")
    ∧ (sendSpeakerSalary sampleEnv richIIGO).2.e.gameState.CommonPool = 97
    ∧ (sendSpeakerSalary sampleEnv richIIGO).2.e.gameState.ClientInfos.get 2 = 23
    ∧ (sendSpeakerSalary sampleEnv
          { richIIGO with e := { richIIGO.e with clientPresident := none } }).1
        = Outcome.returned (some "Cannot perform sendJudgeSalary") :=
  ⟨(sendSpeakerSalary_always_errors sampleEnv richIIGO).1, by decide, by decide,
   (sendSpeakerSalary_always_errors sampleEnv
      { richIIGO with e := { richIIGO.e with clientPresident := none } }).1⟩

end Salary

end SOMAS2020
